import Mathlib

/-!
Verification of the Ichnos carbon-footprint engine against its specification.

The Python sources are shallowly embedded: timestamps are integers
(epoch milliseconds), float quantities are rationals, Python's dict
lookups and call-binding failures are modelled with an `Except PyErr`
monad.  Definitions mirror the corresponding functions of
`src/scripts/CarbonFootprint.py`, `src/scripts/OperationalCarbon.py`,
`src/scripts/IchnosCF.py`, `src/utils/PowerModel.py` and
`src/utils/NodeConfigModelReader.py`.
-/

/-- Python exception outcomes relevant to the embedded code. -/
inductive PyErr where
  | keyError (key : String)
  | typeError (msg : String)
  | nameError (name : String)
  | indexError
  | valueError (msg : String)
  deriving Repr, DecidableEq

/-- Symbolic representation of the power curves built by
`src/utils/MathModels.py` (that module is not among the provided
sources; the constructors record which builder produced the curve and
with which parameters). -/
inductive PowerCurve where
  | minmaxLinear (min_watts max_watts : ℚ)
  | fittedLinear (coeff inter : ℚ)
  | linearModel (m b : ℚ)
  | polynomial (coeffs : List ℚ)
  deriving Repr, DecidableEq

/-- Modelled from the spec: `MathModels.py` is not among the provided
sources.  The spec describes the curve variants as *min-max-linear*
(linear interpolation between idle and peak watts), *fitted-linear*
(coefficient + intercept, also used for `linear_model`), and
*polynomial* (coefficient vector, evaluated at the utilisation value). -/
def PowerCurve.eval : PowerCurve → ℚ → ℚ
  | .minmaxLinear mn mx, u => mn + u * (mx - mn)
  | .fittedLinear c i, u => c * u + i
  | .linearModel m b, u => m * u + b
  | .polynomial cs, u => (cs.reverse.enum.map (fun p => p.2 * u ^ p.1)).sum

/-- `str(n).zfill(2)` for the non-negative integers produced by the
timestamp field accessors. -/
def pad2 (n : Int) : String :=
  if n < 10 then "0" ++ toString n else toString n

/-- Civil date (year, month, day) from a day count relative to
1970-01-01, mirroring the proleptic-Gregorian conversion performed by
Python's `datetime.datetime.fromtimestamp(..., tz=utc)`. -/
def civilFromDays (z0 : Int) : Int × Int × Int :=
  let z := z0 + 719468
  let era := z.ediv 146097
  let doe := z - era * 146097
  let yoe := (doe - doe.ediv 1460 + doe.ediv 36524 - doe.ediv 146096).ediv 365
  let y := yoe + era * 400
  let doy := doe - (365 * yoe + yoe.ediv 4 - yoe.ediv 100)
  let mp := (5 * doy + 2).ediv 153
  let d := doy - (153 * mp + 2).ediv 5 + 1
  let m := mp + (if mp < 10 then 3 else -9)
  (y + (if m ≤ 2 then 1 else 0), m, d)

/-- The (month, day, hour, minute) UTC fields of an epoch-millisecond
timestamp, as produced by `to_timestamp` (`CarbonFootprint.py` line 47,
`src/utils/TimeUtils.py`) followed by field access on the `datetime`. -/
def timestampFields (ms : Int) : Int × Int × Int × Int :=
  let s := ms.ediv 1000
  let minute := (s.ediv 60).emod 60
  let hour := (s.ediv 3600).emod 24
  let days := s.ediv 86400
  let c := civilFromDays days
  (c.2.1, c.2.2, hour, minute)

/-- The composite carbon-intensity key `MM/DD-HH:MM` built from a
window's start timestamp (`CarbonFootprint.py` lines 238-243,
`OperationalCarbon.py` lines 135-140). -/
def ciKeyOf (ms : Int) : String :=
  let f := timestampFields ms
  pad2 f.1 ++ "/" ++ pad2 f.2.1 ++ "-" ++ pad2 f.2.2.1 ++ ":" ++ pad2 f.2.2.2

/-- The carbon-intensity argument: either a float constant or a map
from composite time keys to values (`Union[float, Dict[str, float]]`). -/
inductive CIInput where
  | scalar (value : ℚ)
  | table (map : List (String × ℚ))
  deriving Repr, DecidableEq

/-- Python dict lookup `d[k]`: `KeyError` when the key is absent.
Dicts are modelled as association lists in insertion order. -/
def dictLookup {α : Type} (m : List (String × α)) (k : String) : Except PyErr α :=
  match m.find? (fun p => p.1 = k) with
  | some p => .ok p.2
  | none => .error (.keyError k)

/-- Modelled from the spec: `src/models/CarbonRecord.py` is not among
the provided sources.  The spec's Task record carries `id`, `name`,
`start`, `end` (here `complete`, following the accessor names
`get_start`/`get_complete`), a derived `realtime`, `cpu_count`
(`get_core_count`), `avg_cpu_usage` (`get_cpu_usage`), `memory`
(bytes), `hostname`, and the mutable derived fields written by
`set_energy`/`set_co2e`/`set_avg_ci`. -/
structure CarbonRecord where
  id : String
  name : String
  start : Int
  complete : Int
  realtime : Int
  core_count : Int
  cpu_usage : ℚ
  memory : ℚ
  hostname : String
  energy : ℚ := 0
  co2e : ℚ := 0
  avg_ci : ℚ := 0
  deriving Repr, DecidableEq

/-- Window width hard-coded by `get_tasks_by_hour_with_overhead`
(`CarbonFootprint.py` line 109): `step = 60 * 60 * 1000`. -/
def step : Int := 60 * 60 * 1000

/-- The per-task body of the window loop of
`get_tasks_by_hour_with_overhead` (`CarbonFootprint.py` lines 116-148):
the slice of task `t` assigned to the window `[i, i+step)`, or `none`
when no branch matches. -/
def sliceTask (i : Int) (t : CarbonRecord) : Option CarbonRecord :=
  if t.start ≥ i ∧ t.complete ≤ i + step then
    some t
  else if t.complete > i ∧ t.complete < i + step ∧ t.start < i then
    some { t with start := i, realtime := t.complete - i }
  else if t.start > i ∧ t.start < i + step ∧ t.complete > i + step then
    some { t with complete := i + step, realtime := i + step - t.start }
  else if t.start < i ∧ t.complete > i + step then
    some { t with start := i, complete := i + step, realtime := step }
  else
    none

/-- The `hour_overhead` accumulation of the same loop
(`CarbonFootprint.py` lines 114, 131-139): starting from `0`, each task
matching the starts-here-ends-later branch raises the overhead to
`i + step - start` when that exceeds the current value. -/
def overheadFor (i : Int) (tasks : List CarbonRecord) : Int :=
  tasks.foldl
    (fun acc t =>
      if t.start > i ∧ t.start < i + step ∧ t.complete > i + step ∧ i + step - t.start > acc
      then i + step - t.start else acc)
    0

/-- The number of iterations performed by the `while i <= end_hour`
loop of `get_tasks_by_hour_with_overhead` (`CarbonFootprint.py` lines
110-112, 152), which starts at `i = start_hour - step` and advances by
`step`. -/
def numWindows (start_hour end_hour : Int) : ℕ :=
  ((end_hour - (start_hour - step)).ediv step + 1).toNat

/-- The window left edges visited by that loop: `start_hour - step`,
then increments of `step`, while the edge stays `≤ end_hour`. -/
def windowEdges (start_hour end_hour : Int) : List Int :=
  (List.range (numWindows start_hour end_hour)).map
    (fun (k : ℕ) => start_hour - step + (k : Int) * step)

/-- `get_tasks_by_hour_with_overhead` (`CarbonFootprint.py` lines
104-156): bins tasks into hour-wide windows keyed by their left edge
(the Python dict, in insertion order, becomes an association list) and
returns the per-window overhead list alongside. -/
def get_tasks_by_hour_with_overhead (start_hour end_hour : Int)
    (tasks : List CarbonRecord) :
    List (Int × List CarbonRecord) × List Int :=
  let ws := windowEdges start_hour end_hour
  (ws.map (fun i => (i, tasks.filterMap (sliceTask i))),
   ws.map (fun i => overheadFor i tasks))

/-- `linear_power_model` (`CarbonFootprint.py` lines 30-31). -/
def linear_power_model (cpu_usage min_watts max_watts : ℚ) : ℚ :=
  min_watts + cpu_usage * (max_watts - min_watts)

/-- `estimate_task_energy_consumption_ccf` (`CarbonFootprint.py` lines
206-220): returns `(core_consumption, memory_consumption)` in kWh,
both without PUE.  Python would raise `ZeroDivisionError` for
`core_count = 0`; rational division by zero yields `0` instead, and no
theorem below evaluates that corner. -/
def estimate_task_energy_consumption_ccf (task : CarbonRecord)
    (min_watts max_watts memory_coefficient : ℚ) : ℚ × ℚ :=
  let time := (task.realtime : ℚ) / 1000 / 3600
  let no_cores := task.core_count
  let cpu_usage := task.cpu_usage / (100 * (no_cores : ℚ))
  let memory := task.memory / 1073741824
  let core_consumption := time * linear_power_model cpu_usage min_watts max_watts * 0.001
  let memory_consumption := memory * memory_coefficient * time * 0.001
  (core_consumption, memory_consumption)

/-- The tuple of totals returned by
`CarbonFootprint.calculate_carbon_footprint_ccf` (line 274), with the
per-slice record list. -/
structure CFResult where
  total_energy : ℚ
  total_energy_pue : ℚ
  total_memory_energy : ℚ
  total_memory_energy_pue : ℚ
  total_carbon_emissions : ℚ
  node_memory_used : List (ℚ × ℚ)
  records : List CarbonRecord
  deriving Repr, DecidableEq

/-- Resolution of the `ci` argument for one window (`CarbonFootprint.py`
lines 235-244): a float constant is used directly, a table is indexed
with the composite key and raises `KeyError` on a miss. -/
def ciValFor (ci : CIInput) (hour : Int) : Except PyErr ℚ :=
  match ci with
  | .scalar v => .ok v
  | .table m => dictLookup m (ciKeyOf hour)

/-- The body of the window loop of
`CarbonFootprint.calculate_carbon_footprint_ccf` (lines 233-272),
threading the running totals. -/
def cfWindowBody (ci : CIInput) (pue min_watts max_watts memory_coefficient : ℚ)
    (check_node_memory : Bool) (acc : CFResult) (hw : Int × List CarbonRecord) :
    Except PyErr CFResult :=
  (do
      let hour := hw.1
      let tasks := hw.2
      if tasks.length > 0 then do
        let ci_val ← ciValFor ci hour
        let acc :=
          if check_node_memory then
            let earliest := (tasks.map (·.start)).min?.getD 0
            let latest := (tasks.map (·.complete)).max?.getD 0
            let realtime := ((latest - earliest : Int) : ℚ) / 1000 / 3600
            { acc with node_memory_used := acc.node_memory_used ++ [(realtime, ci_val)] }
          else acc
        pure (tasks.foldl
          (fun acc task =>
            let em := estimate_task_energy_consumption_ccf task min_watts max_watts memory_coefficient
            let energy := em.1
            let memory := em.2
            let energy_pue := energy * pue
            let memory_pue := memory * pue
            let task_footprint := (energy_pue + memory_pue) * ci_val
            let task := { task with energy := energy_pue, co2e := task_footprint, avg_ci := ci_val }
            { acc with
              total_energy := acc.total_energy + energy,
              total_energy_pue := acc.total_energy_pue + energy_pue,
              total_memory_energy := acc.total_memory_energy + memory,
              total_memory_energy_pue := acc.total_memory_energy_pue + memory_pue,
              total_carbon_emissions := acc.total_carbon_emissions + task_footprint,
              records := acc.records ++ [task] })
          acc)
      else
        pure acc)

/-- `calculate_carbon_footprint_ccf` (`CarbonFootprint.py` lines
224-274).  Windows are visited in dict insertion order; a window is
skipped when its task list is empty. -/
def calculate_carbon_footprint_ccf (tasks_by_hour : List (Int × List CarbonRecord))
    (ci : CIInput) (pue min_watts max_watts memory_coefficient : ℚ)
    (check_node_memory : Bool := false) : Except PyErr CFResult :=
  tasks_by_hour.foldlM
    (cfWindowBody ci pue min_watts max_watts memory_coefficient check_node_memory)
    ⟨0, 0, 0, 0, 0, [], []⟩

/-- The tail of `CarbonFootprint.main` (lines 409-458): the summary and
trace/report files are written only after
`calculate_carbon_footprint_ccf` has returned, so an exception inside
it propagates and nothing is written.  The value is the list of files
written. -/
def cfMainWrites (tasks_by_hour : List (Int × List CarbonRecord))
    (ci : CIInput) (pue min_watts max_watts memory_coefficient : ℚ)
    (check_node_memory : Bool) (workflow : String) : Except PyErr (List String) := do
  let _ ← calculate_carbon_footprint_ccf tasks_by_hour ci pue min_watts max_watts
      memory_coefficient check_node_memory
  pure [workflow ++ "-summary.txt", workflow ++ "-trace.csv", workflow ++ "-detailed-summary.txt"]

/-- `UniversalTrace` (`src/models/UniversalTrace.py` lines 23-33); the
Python field `end` is spelled `end_` here. -/
structure UniversalTrace where
  id : String
  name : String
  start : Int
  end_ : Int
  cpu_count : Int
  avg_cpu_usage : ℚ
  cpu_model : String
  memory : ℚ
  hostname : String
  rapl_timeseries : Option String := none
  cpu_usage_timeseries : Option String := none
  deriving Repr, DecidableEq

/-- One step of the `tasks_by_host` grouping pass of
`compute_active_time_per_host` (`OperationalCarbon.py` lines 20-27):
append the task's `(float(start), float(end))` pair to its host's
list, creating the entry on first occurrence. -/
def groupStep (acc : List (String × List (ℚ × ℚ))) (t : UniversalTrace) :
    List (String × List (ℚ × ℚ)) :=
  if acc.any (fun p => p.1 = t.hostname) then
    acc.map (fun p => if p.1 = t.hostname then (p.1, p.2 ++ [((t.start : ℚ), (t.end_ : ℚ))]) else p)
  else
    acc ++ [(t.hostname, [((t.start : ℚ), (t.end_ : ℚ))])]

/-- The grouping pass itself (`OperationalCarbon.py` lines 18-27):
hosts in first-occurrence order, each host's interval pairs in task
order. -/
def groupIntervalsByHost (tasks : List UniversalTrace) :
    List (String × List (ℚ × ℚ)) :=
  tasks.foldl groupStep []

/-- The merge loop of `compute_active_time_per_host`
(`OperationalCarbon.py` lines 39-45), carrying the current interval
`(cs, ce)`: a next interval starting at or before `ce` extends it,
otherwise the current interval is emitted and restarted. -/
def mergeLoop (cs ce : ℚ) : List (ℚ × ℚ) → List (ℚ × ℚ)
  | [] => [(cs, ce)]
  | iv :: rest =>
      if iv.1 ≤ ce then mergeLoop cs (max ce iv.2) rest
      else (cs, ce) :: mergeLoop iv.1 iv.2 rest

/-- Python's stable `intervals.sort(key=lambda x: x[0])`
(`OperationalCarbon.py` line 35), modelled by the (equally stable)
insertion sort on the first component. -/
def sortByStart (l : List (ℚ × ℚ)) : List (ℚ × ℚ) :=
  l.insertionSort (fun a b => a.1 ≤ b.1)

/-- The per-host body of `compute_active_time_per_host`
(`OperationalCarbon.py` lines 31-48): skip a host with no intervals
(`if not intervals: continue`), otherwise sort, merge and convert the
summed merged length from ms to hours. -/
def hostActiveEntry (p : String × List (ℚ × ℚ)) : Option (String × ℚ) :=
  match sortByStart p.2 with
  | [] => none
  | c :: rest =>
      let merged := mergeLoop c.1 c.2 rest
      let total_ms := (merged.map (fun q => q.2 - q.1)).sum
      some (p.1, total_ms / 1000 / 3600)

/-- `compute_active_time_per_host` (`OperationalCarbon.py` lines
17-50): per host, sort the `(start, end)` intervals by start, merge
overlapping or contiguous ones, and return the summed merged length
converted from ms to hours. -/
def compute_active_time_per_host (tasks : List UniversalTrace) :
    List (String × ℚ) :=
  (groupIntervalsByHost tasks).filterMap hostActiveEntry

/-- `TaskEnergyResult` (`src/models/TaskEnergyResult.py`, not among the
provided sources; its two fields are fixed by the constructor calls in
`OperationalCarbon.py` line 83). -/
structure TaskEnergyResult where
  core_consumption : ℚ
  memory_consumption : ℚ
  deriving Repr, DecidableEq

/-- Python's `'baseline' in model_name` substring test
(`OperationalCarbon.py` line 76). -/
def containsSub (needle hay : String) : Bool :=
  (List.range (hay.data.length + 1)).any
    (fun k => needle.data.isPrefixOf (hay.data.drop k))

/-- `OperationalCarbon.estimate_task_energy_consumption_ccf` (lines
54-83).  `system_cores` is rational because it flows in from the JSON
config; `if not system_cores` treats `0` (Python also `None`) as
missing and substitutes 32.  For a model name containing `baseline`
the first `core_consumption` is recomputed from the raw
`avg_cpu_usage` instead of the per-core fraction. -/
def oc_estimate_task_energy_consumption_ccf (task : UniversalTrace)
    (model : PowerCurve) (model_name : String) (memory_coefficient : ℚ)
    (system_cores : ℚ) : TaskEnergyResult :=
  let system_cores := if system_cores = 0 then 32 else system_cores
  let time_h := ((task.end_ - task.start : Int) : ℚ) / 1000 / 3600
  let cpu_usage := task.avg_cpu_usage / system_cores
  let memory := task.memory / 1073741824
  let core0 := time_h * model.eval cpu_usage * 0.001
  let core_consumption :=
    if containsSub "baseline" model_name then
      time_h * model.eval task.avg_cpu_usage * 0.001
    else core0
  let memory_consumption := memory * memory_coefficient * time_h * 0.001
  ⟨core_consumption, memory_consumption⟩

/-- JSON values of `node_config_models/nodes.json` as read by
`NodeConfigModelReader.load_node_config`. -/
inductive JVal where
  | num (q : ℚ)
  | arr (l : List ℚ)
  | str (s : String)
  | obj (entries : List (String × JVal))

/-- Python subscript `v[k]` on a JSON value: `KeyError` on a missing
key, `TypeError` when `v` is not a dict. -/
def JVal.get (v : JVal) (k : String) : Except PyErr JVal :=
  match v with
  | .obj entries => dictLookup entries k
  | _ => .error (.typeError "value is not subscriptable by string")

/-- Use of a JSON value as a number. -/
def JVal.asNum (v : JVal) : Except PyErr ℚ :=
  match v with
  | .num q => .ok q
  | _ => .error (.typeError "value is not a number")

/-- Use of a JSON value as a coefficient list. -/
def JVal.asArr (v : JVal) : Except PyErr (List ℚ) :=
  match v with
  | .arr l => .ok l
  | _ => .error (.typeError "value is not a list")

/-- Splitting a character list at every occurrence of `c`, keeping
empty segments, as Python's `str.split` with an explicit separator
does. -/
def splitOnChar (c : Char) : List Char → List (List Char)
  | [] => [[]]
  | x :: xs =>
      let r := splitOnChar c xs
      if x = c then [] :: r
      else
        match r with
        | [] => [[x]]
        | h :: t => (x :: h) :: t

/-- `s.split('_')`-style splitting on a single character. -/
def pySplit (s : String) (c : Char) : List String :=
  (splitOnChar c s.data).map (fun l => ⟨l⟩)

/-- Python `lst[n]`: `IndexError` when out of range. -/
def listIdx {α : Type} (l : List α) (n : Nat) : Except PyErr α :=
  match l.get? n with
  | some a => .ok a
  | none => .error .indexError

/-- `model_name.split('_')[0]`, which always exists. -/
def governorOf (model_name : String) : String :=
  (pySplit model_name '_').headD ""

/-- `get_power_model_for_node` (`src/utils/PowerModel.py` lines 6-28),
with the loaded `node_config` passed explicitly.  Returns the curve
together with the baseline wattage.  On the fall-through branch the
coefficient vector is looked up (raising `KeyError` when the model
type is not a configured key) and the polynomial curve is built, but
the second tuple component reads the never-assigned local `inter`, so
Python raises `UnboundLocalError` (a `NameError`). -/
def get_power_model_for_node (node_config : JVal) (node_id model_name : String) :
    Except PyErr (PowerCurve × ℚ) := do
  let model_data := pySplit model_name '_'
  let governor ← listIdx model_data 0
  let model_type ← listIdx model_data 1
  if model_type = "minmax" then do
    let gov ← (← node_config.get node_id).get governor
    let min_watts ← (← gov.get "min_watts").asNum
    let max_watts ← (← gov.get "max_watts").asNum
    pure (.minmaxLinear min_watts max_watts, min_watts)
  else if model_type = "baseline" then do
    let tdp_per_core ← (← (← node_config.get node_id).get "tdp_per_core").asNum
    pure (.fittedLinear tdp_per_core 0, 0)
  else if model_type = "linear" then do
    let linear_vals ← (← (← (← node_config.get node_id).get governor).get "linear").asArr
    let coeff ← listIdx linear_vals 0
    let inter ← listIdx linear_vals 1
    pure (.fittedLinear coeff inter, inter)
  else do
    let coeffs ← (← (← (← node_config.get node_id).get governor).get model_type).asArr
    let _curve := PowerCurve.polynomial coeffs
    .error (.nameError "inter")

/-- `DEFAULT_MEMORY_POWER_DRAW` (`src/Constants.py`; the value 0.392
W/GB also appears in `CarbonFootprint.py` line 23). -/
def DEFAULT_MEMORY_POWER_DRAW : ℚ := 0.392

/-- `get_memory_draw` (`NodeConfigModelReader.py` lines 23-30): the
bare `except` turns any lookup failure into the default coefficient. -/
def get_memory_draw (node_config : JVal) (node_id model_name : String) : ℚ :=
  let attempt : Except PyErr ℚ := do
    (← (← (← node_config.get node_id).get (governorOf model_name)).get "mem_draw").asNum
  match attempt with
  | .ok v => v
  | .error _ => DEFAULT_MEMORY_POWER_DRAW

/-- `get_system_cores` (`NodeConfigModelReader.py` lines 33-37): two
required positional parameters. -/
def get_system_cores (node_config : JVal) (node_id model_name : String) :
    Except PyErr ℚ := do
  (← (← (← node_config.get node_id).get (governorOf model_name)).get "system_cores").asNum

/-- The positional parameters of `get_system_cores`
(`NodeConfigModelReader.py` line 33), none of which has a default. -/
def get_system_cores_params : List String := ["node_id", "model_name"]

/-- Python call binding for positional arguments only: binding fails
with `TypeError` unless the count matches the parameter list. -/
def checkCallArity (params : List String) (nargs : Nat) : Except PyErr Unit :=
  if nargs = params.length then .ok ()
  else .error (.typeError "positional arguments do not match the parameter list")

/-- The call `get_system_cores(node)` (`OperationalCarbon.py` line
123): one positional argument against a two-parameter definition, so
binding raises `TypeError` before the body runs. -/
def get_system_cores_one_arg_call (node_config : JVal) (node : String) :
    Except PyErr ℚ :=
  match checkCallArity get_system_cores_params 1 with
  | .ok _ => get_system_cores node_config node ""
  | .error e => .error e

/-- `get_system_memory` (`NodeConfigModelReader.py` lines 40-42). -/
def get_system_memory (node_config : JVal) (node_id : String) :
    Except PyErr ℚ := do
  (← (← node_config.get node_id).get "memory").asNum

/-- The field names declared by the `ProcessedTrace` dataclass
(`src/models/ProcessedTrace.py` lines 21-26). -/
def processedTraceFieldNames : List String :=
  ["universal", "average_co2e", "marginal_co2e", "embodied_co2e", "avg_ci",
   "ci_timeseries"]

/-- The keyword arguments passed to `ProcessedTrace(...)` at its
construction site (`OperationalCarbon.py` lines 206-216). -/
def processedTraceCallKwargs : List String :=
  ["universal", "average_co2e", "marginal_co2e", "embodied_co2e", "avg_ci",
   "average_water", "avg_ewif", "average_land", "avg_elif"]

/-- Python keyword-argument binding: any keyword that is not a declared
field raises `TypeError("__init__() got an unexpected keyword
argument ...")`. -/
def bindKwargs (fields kwargs : List String) : Except PyErr Unit :=
  match kwargs.find? (fun k => ¬ fields.contains k) with
  | some k => .error (.typeError ("unexpected keyword argument " ++ k))
  | none => .ok ()

/-- The record the `ProcessedTrace(...)` construction site
(`OperationalCarbon.py` lines 206-216) intends to build: the keyword
arguments actually passed there.  The dataclass itself declares only
the first five fields plus `ci_timeseries` (see
`processedTraceFieldNames`), which is what makes the construction
raise. -/
structure ProcessedTraceRecord where
  universal : UniversalTrace
  average_co2e : ℚ
  marginal_co2e : ℚ
  embodied_co2e : ℚ
  avg_ci : ℚ
  average_water : Option ℚ
  avg_ewif : Option ℚ
  average_land : Option ℚ
  avg_elif : Option ℚ
  deriving Repr, DecidableEq

/-- `OperationalCarbonResult` (`src/models/OperationalCarbonResult.py`
lines 5-20).  There is no field for static carbon emissions. -/
structure OperationalCarbonResult where
  cpu_energy : ℚ
  cpu_energy_pue : ℚ
  memory_energy : ℚ
  memory_energy_pue : ℚ
  carbon_emissions : ℚ
  water_emissions : Option ℚ
  land_emissions : Option ℚ
  static_cpu_energy_per_host : List (String × ℚ)
  static_mem_energy : ℚ
  records : List ProcessedTraceRecord
  deriving Repr, DecidableEq

/-- The per-node configuration dictionaries built by the resolution
loop of `OperationalCarbon.calculate_carbon_footprint_ccf` (lines
115-124). -/
structure NodeMaps where
  power : List (String × (PowerCurve × ℚ))
  memCoeff : List (String × ℚ)
  cores : List (String × ℚ)
  memory : List (String × ℚ)

/-- Python truthiness of an optional float (`None` and `0.0` are
falsy). -/
def optTruthy (o : Option ℚ) : Bool :=
  match o with
  | none => false
  | some q => q ≠ 0

/-- Python truthiness of an optional float-or-dict intensity argument
(`None`, `0.0` and an empty dict are falsy). -/
def ciTruthy (o : Option CIInput) : Bool :=
  match o with
  | none => false
  | some (.scalar q) => q ≠ 0
  | some (.table m) => ¬ m.isEmpty

/-- `d[k] += v` with insertion on a missing key (`OperationalCarbon.py`
lines 226-229). -/
def assocAdd (m : List (String × ℚ)) (k : String) (v : ℚ) : List (String × ℚ) :=
  if m.any (fun p => p.1 = k) then
    m.map (fun p => if p.1 = k then (p.1, p.2 + v) else p)
  else
    m ++ [(k, v)]

/-- The mutable locals of `OperationalCarbon.calculate_carbon_footprint_ccf`
(lines 105-128).  `total_static_cpu_emissions` is among them; the
result constructor at lines 236-247 drops it. -/
structure OCAgg where
  total_energy : ℚ
  total_energy_pue : ℚ
  total_memory_energy : ℚ
  total_memory_energy_pue : ℚ
  total_carbon_emissions : ℚ
  total_water_emissions : Option ℚ
  total_land_emissions : Option ℚ
  records : List ProcessedTraceRecord
  static_energy : List (String × ℚ)
  static_memory_energy : ℚ
  total_static_cpu_emissions : ℚ

/-- The `ewif`/`elif_` per-window value resolution
(`OperationalCarbon.py` lines 157-170): `None` stays `None`, a truthy
float is used directly, a truthy dict is indexed by the composite key. -/
def impactValFor (o : Option CIInput) (intensity_key : String) :
    Except PyErr (Option ℚ) :=
  match o with
  | none => pure none
  | some (.scalar q) => if q ≠ 0 then pure (some q) else pure none
  | some (.table m) =>
      if m.isEmpty then pure none
      else do pure (some (← dictLookup m intensity_key))

/-- The window loop of `OperationalCarbon.calculate_carbon_footprint_ccf`
(lines 126-247), taking the already-resolved per-node maps.  With
`repaired = false` the `ProcessedTrace(...)` construction performs the
keyword binding of the real dataclass and therefore raises `TypeError`
(the arguments include four undeclared keywords); `repaired = true`
models the construction the call site intends, so that the
aggregation arithmetic of the later lines can be examined. -/
def oc_aggregate (maps : NodeMaps)
    (tasks_grouped_by_interval : List (Int × List UniversalTrace))
    (ci : CIInput) (pue : ℚ) (model_name : String)
    (ewif : Option CIInput) (wue : Option ℚ)
    (elif_ : Option CIInput) (lue : Option ℚ)
    (repaired : Bool) : Except PyErr OperationalCarbonResult := do
  let init : OCAgg :=
    { total_energy := 0, total_energy_pue := 0, total_memory_energy := 0,
      total_memory_energy_pue := 0, total_carbon_emissions := 0,
      total_water_emissions := if optTruthy wue ∧ ciTruthy ewif then some 0 else none,
      total_land_emissions := if optTruthy lue ∧ ciTruthy elif_ then some 0 else none,
      records := [], static_energy := [], static_memory_energy := 0,
      total_static_cpu_emissions := 0 }
  let final ← tasks_grouped_by_interval.foldlM
    (fun (acc : OCAgg) iw => do
      let group_interval := iw.1
      let tasks := iw.2
      if tasks.isEmpty then
        pure acc
      else do
        let intensity_key := ciKeyOf group_interval
        let ci_val ← match ci with
          | .scalar v => pure v
          | .table m => dictLookup m intensity_key
        let ewif_val ← impactValFor ewif intensity_key
        let elif_val ← impactValFor elif_ intensity_key
        let acc ← tasks.foldlM
          (fun (acc : OCAgg) task => do
            let host := task.hostname
            let power_pair ← dictLookup maps.power host
            let memory_coefficient ← dictLookup maps.memCoeff host
            let system_cores ← dictLookup maps.cores host
            let energy_result := oc_estimate_task_energy_consumption_ccf task
              power_pair.1 model_name memory_coefficient system_cores
            let energy_core := energy_result.core_consumption
            let energy_mem := energy_result.memory_consumption
            let energy_core_pue := energy_core * pue
            let energy_mem_pue := energy_mem * pue
            let task_footprint := (energy_core_pue + energy_mem_pue) * ci_val
            let task_water_footprint : Option ℚ :=
              if optTruthy wue ∧ ciTruthy ewif then
                some ((energy_core + energy_mem) * wue.getD 0 +
                  (energy_core_pue + energy_mem_pue) * ewif_val.getD 0)
              else none
            let task_land_footprint : Option ℚ :=
              if optTruthy lue ∧ ciTruthy elif_ then
                some ((energy_core + energy_mem) * lue.getD 0 +
                  (energy_core_pue + energy_mem_pue) * elif_val.getD 0)
              else none
            if repaired = false then
              let _ ← bindKwargs processedTraceFieldNames processedTraceCallKwargs
            let record : ProcessedTraceRecord :=
              { universal := task, average_co2e := task_footprint,
                marginal_co2e := task_footprint, embodied_co2e := 0,
                avg_ci := ci_val, average_water := task_water_footprint,
                avg_ewif := ewif_val, average_land := task_land_footprint,
                avg_elif := elif_val }
            pure { acc with
              total_energy := acc.total_energy + energy_core,
              total_energy_pue := acc.total_energy_pue + energy_core_pue,
              total_memory_energy := acc.total_memory_energy + energy_mem,
              total_memory_energy_pue := acc.total_memory_energy_pue + energy_mem_pue,
              total_carbon_emissions := acc.total_carbon_emissions + task_footprint,
              total_water_emissions :=
                match acc.total_water_emissions, task_water_footprint with
                | some w, some tw => some (w + tw)
                | w, _ => w,
              total_land_emissions :=
                match acc.total_land_emissions, task_land_footprint with
                | some l, some tl => some (l + tl)
                | l, _ => l,
              records := acc.records ++ [record] })
          acc
        let active_time_per_host := compute_active_time_per_host tasks
        let pair ← active_time_per_host.foldlM
          (fun (p : OCAgg × ℚ) hv => do
            let host := hv.1
            let hours := hv.2
            let power_pair ← dictLookup maps.power host
            let energy := hours * power_pair.2 * 0.001
            let mem_coeff ← dictLookup maps.memCoeff host
            let node_mem ← dictLookup maps.memory host
            pure ({ p.1 with
              static_energy := assocAdd p.1.static_energy host energy,
              static_memory_energy :=
                p.1.static_memory_energy + hours * mem_coeff * node_mem * 0.001 },
              p.2 + energy))
          (acc, (0 : ℚ))
        let acc := pair.1
        let interval_static_energy := pair.2
        pure { acc with
          total_static_cpu_emissions :=
            acc.total_static_cpu_emissions + interval_static_energy * ci_val })
    init
  pure {
    cpu_energy := final.total_energy,
    cpu_energy_pue := final.total_energy_pue,
    memory_energy := final.total_memory_energy,
    memory_energy_pue := final.total_memory_energy_pue,
    carbon_emissions := final.total_carbon_emissions,
    water_emissions := final.total_water_emissions,
    land_emissions := final.total_land_emissions,
    static_cpu_energy_per_host := final.static_energy,
    static_mem_energy := final.static_memory_energy,
    records := final.records }

/-- `OperationalCarbon.calculate_carbon_footprint_ccf` (lines 87-247):
the argument pairing checks, the per-node configuration resolution
loop (lines 120-124, which calls `get_system_cores` with one
argument), and the window loop. -/
def oc_calculate_carbon_footprint_ccf (node_config : JVal)
    (tasks_grouped_by_interval : List (Int × List UniversalTrace))
    (ci : CIInput) (pue : ℚ) (model_name : String) (memory_coefficient : ℚ)
    (unique_nodes : List String) (check_node_memory : Bool := false)
    (ewif : Option CIInput := none) (wue : Option ℚ := none)
    (elif_ : Option CIInput := none) (lue : Option ℚ := none) :
    Except PyErr OperationalCarbonResult := do
  let _ := memory_coefficient
  let _ := check_node_memory
  if wue.isNone ≠ ewif.isNone then
    throw (.valueError "Both wue and ewif must be provided together.")
  if lue.isNone ≠ elif_.isNone then
    throw (.valueError "Both lue and elif_ must be provided together.")
  let maps ← unique_nodes.foldlM
    (fun (maps : NodeMaps) node => do
      let pm ← get_power_model_for_node node_config node model_name
      let md := get_memory_draw node_config node model_name
      let sc ← get_system_cores_one_arg_call node_config node
      let mem ← get_system_memory node_config node
      pure { power := maps.power ++ [(node, pm)],
             memCoeff := maps.memCoeff ++ [(node, md)],
             cores := maps.cores ++ [(node, sc)],
             memory := maps.memory ++ [(node, mem)] })
    ⟨[], [], [], []⟩
  oc_aggregate maps tasks_grouped_by_interval ci pue model_name ewif wue elif_ lue false

/-- The value accumulated into the local `total_static_cpu_emissions`
(`OperationalCarbon.py` lines 128, 218-234): per window with tasks,
the merged active hours of each host times its baseline wattage times
0.001, summed, times that window's carbon-intensity value.  The
function computes this and then drops it — it appears nowhere in the
constructed `OperationalCarbonResult`. -/
def oc_total_static_cpu_emissions (maps : NodeMaps)
    (tasks_grouped_by_interval : List (Int × List UniversalTrace))
    (ci : CIInput) : Except PyErr ℚ :=
  tasks_grouped_by_interval.foldlM
    (fun acc iw => do
      if iw.2.isEmpty then
        pure acc
      else do
        let ci_val ← match ci with
          | .scalar v => pure v
          | .table m => dictLookup m (ciKeyOf iw.1)
        let active := compute_active_time_per_host iw.2
        let interval_static ← active.foldlM
          (fun s hv => do
            let power_pair ← dictLookup maps.power hv.1
            pure (s + hv.2 * power_pair.2 * 0.001))
          (0 : ℚ)
        pure (acc + interval_static * ci_val))
    0

/-- The `gpgnodes` constants of `IchnosCF.py` (lines 12-13). -/
def node_min_watts : ℚ := 48.26

/-- See `node_min_watts`. -/
def node_max_watts : ℚ := 124.96333333333332

/-- `IchnosCF.get_power_model` (lines 19-29) with the loaded
`gpgnodes.json` passed explicitly: a model name that is not a key of
the table silently yields the default min-max linear curve; a known
name yields the configured polynomial. -/
def ichnos_get_power_model (models : List (String × List ℚ))
    (model_name : String) : PowerCurve :=
  match models.find? (fun p => p.1 = model_name) with
  | none => .linearModel ((node_max_watts - node_min_watts) / 100) node_min_watts
  | some p => .polynomial p.2

/-- The slice duration task `t` receives in the window starting at
`i`: the `realtime` of its slice there, `0` when it gets no slice. -/
def sliceDurOf (i : Int) (t : CarbonRecord) : Int :=
  match sliceTask i t with
  | some s => s.realtime
  | none => 0

/-- The total slice duration attributed to task id `tid` across all
windows of a binning result. -/
def sliceDurationsForId (byHour : List (Int × List CarbonRecord)) (tid : String) : Int :=
  (byHour.map (fun p => ((p.2.filter (fun t => t.id = tid)).map (·.realtime)).sum)).sum

/-- Length of the intersection of `[p, q)` with the window `[i, i+step)`. -/
def ilen (p q i : Int) : Int :=
  max 0 (min q (i + step) - max p i)

/-- The overhead value the claim describes for window `[i, i+step)`:
the maximum of `i + step - start` over tasks that start inside the
half-open window (left edge included) and end after the window's end. -/
def specOverheadInclusive (i : Int) (tasks : List CarbonRecord) : Int :=
  ((tasks.filter (fun t =>
      decide (i ≤ t.start ∧ t.start < i + step ∧ i + step < t.complete))).map
    (fun t => i + step - t.start)).foldl max 0

/-- The overhead the code computes, written as a list maximum: the
window's left edge is excluded (`start > i` strictly). -/
def strictOverheadMax (i : Int) (tasks : List CarbonRecord) : Int :=
  ((tasks.filter (fun t =>
      decide (i < t.start ∧ t.start < i + step ∧ i + step < t.complete))).map
    (fun t => i + step - t.start)).foldl max 0

/-- Membership of a point in the union of a list of half-open
intervals. -/
def coversPt (l : List (ℚ × ℚ)) (x : ℚ) : Prop :=
  ∃ p ∈ l, p.1 ≤ x ∧ x < p.2

/-- Association-list lookup as an `Option` (the successful side of
`dictLookup`). -/
def assocFind {α : Type} (m : List (String × α)) (k : String) : Option α :=
  (m.find? (fun p => p.1 = k)).map (fun p => p.2)

/-- The `(float(start), float(end))` pair taken from a task by the
grouping pass of `compute_active_time_per_host`. -/
def ivOf (t : UniversalTrace) : ℚ × ℚ :=
  ((t.start : ℚ), (t.end_ : ℚ))

/-- A task that spans exactly two full windows, with both endpoints on
window boundaries. -/
def boundaryAlignedTask : CarbonRecord :=
  { id := "t1", name := "boundary", start := 0, complete := 7200000,
    realtime := 7200000, core_count := 1, cpu_usage := 50, memory := 0,
    hostname := "n1" }

/-- A task strictly inside the covered range, split across two
windows, with no boundary-aligned endpoint. -/
def splitTask : CarbonRecord :=
  { id := "t1", name := "split", start := 100, complete := 3700100,
    realtime := 3700000, core_count := 1, cpu_usage := 50, memory := 0,
    hostname := "n1" }

/-- A task that starts 10 ms into a window and runs past the next
window as well. -/
def lateStartTask : CarbonRecord :=
  { id := "t1", name := "late", start := 10, complete := 7200001,
    realtime := 7200001 - 10, core_count := 1, cpu_usage := 50, memory := 0,
    hostname := "n1" }

/-- The spec's Scenario A task: one hour, 50% usage on one core, no
memory. -/
def scenarioATask : CarbonRecord :=
  { id := "t1", name := "scenario-a", start := 0, complete := 3600000,
    realtime := 3600000, core_count := 1, cpu_usage := 50, memory := 0,
    hostname := "n1" }

/-- A one-hour task on host `h1`, 50% of the 100 configured cores. -/
def ocHourTask : UniversalTrace :=
  { id := "u1", name := "hour", start := 0, end_ := 3600000, cpu_count := 1,
    avg_cpu_usage := 50, cpu_model := "m", memory := 0, hostname := "h1" }

/-- Resolved node maps for host `h1`: a 50-200 W min-max curve with a
50 W baseline, 100 system cores, zero memory draw. -/
def h1Maps : NodeMaps :=
  { power := [("h1", (.minmaxLinear 50 200, 50))],
    memCoeff := [("h1", 0)],
    cores := [("h1", 100)],
    memory := [("h1", 0)] }

/-- A node configuration on which `ondemand_minmax` resolves for node
`n1`. -/
def n1Config : JVal :=
  .obj [("n1", .obj [("ondemand",
    .obj [("min_watts", .num 50), ("max_watts", .num 200)])])]

/-- Two tasks on the same host whose intervals fully overlap: the
second lies inside the first. -/
def overlapTaskA : UniversalTrace :=
  { id := "u1", name := "outer", start := 0, end_ := 3600000, cpu_count := 2,
    avg_cpu_usage := 50, cpu_model := "m", memory := 0, hostname := "h1" }

/-- See `overlapTaskA`. -/
def overlapTaskB : UniversalTrace :=
  { id := "u2", name := "inner", start := 600000, end_ := 1200000, cpu_count := 2,
    avg_cpu_usage := 50, cpu_model := "m", memory := 0, hostname := "h1" }

/-- Two one-hour tasks differing only in `cpu_count`. -/
def oneCoreTask : UniversalTrace :=
  { id := "u1", name := "one", start := 0, end_ := 3600000, cpu_count := 1,
    avg_cpu_usage := 50, cpu_model := "m", memory := 0, hostname := "h1" }

/-- See `oneCoreTask`. -/
def twoCoreTask : UniversalTrace :=
  { id := "u2", name := "two", start := 0, end_ := 3600000, cpu_count := 2,
    avg_cpu_usage := 50, cpu_model := "m", memory := 0, hostname := "h1" }

/-- Half-hour slices of one task in consecutive half-hour-keyed
windows, with different per-slice data. -/
def halfSliceA : CarbonRecord :=
  { id := "t1", name := "half-a", start := 0, complete := 1800000,
    realtime := 1800000, core_count := 1, cpu_usage := 50, memory := 0,
    hostname := "n1" }

/-- See `halfSliceA`. -/
def halfSliceB : CarbonRecord :=
  { id := "t1", name := "half-b", start := 1800000, complete := 3600000,
    realtime := 1800000, core_count := 1, cpu_usage := 80, memory := 0,
    hostname := "n1" }

deriving instance DecidableEq for Except

instance : IsTrans (ℚ × ℚ) (fun a b => a.1 ≤ b.1) :=
  ⟨fun _ _ _ h1 h2 => le_trans h1 h2⟩

instance : IsTotal (ℚ × ℚ) (fun a b => a.1 ≤ b.1) :=
  ⟨fun a b => le_total a.1 b.1⟩

/-- C9: Scenario A — one task, `start=0`, `end=3_600_000` ms,
`avg_cpu_usage=50` on one core, window width 3_600_000 ms, min-max
curve 50-200 W, PUE 1.0, carbon intensity 100 gCO2/kWh, zero memory:
binning followed by `calculate_carbon_footprint_ccf` yields core
energy exactly 0.125 kWh and carbon emissions exactly 12.5 g. -/
theorem C9_scenario_a :
    (calculate_carbon_footprint_ccf
        (get_tasks_by_hour_with_overhead 0 3600000 [scenarioATask]).1
        (CIInput.scalar 100) 1 50 200 0.392 false).map
      (fun r => (r.total_energy, r.total_energy_pue, r.total_carbon_emissions))
    = .ok (1/8, 1/8, 25/2) := by
  rw [show (get_tasks_by_hour_with_overhead 0 3600000 [scenarioATask]).1
      = [(-3600000, []), (0, [scenarioATask]), (3600000, [])] from by decide]
  simp [calculate_carbon_footprint_ccf, cfWindowBody, List.foldlM, Except.instMonad,
    Except.bind, Except.pure, Except.map, ciValFor, estimate_task_energy_consumption_ccf,
    linear_power_model, scenarioATask]
  norm_num

/-- C1 (counterexample): the conservation half of the claim fails as
stated.  A task running from 0 to 7_200_000 ms (both window
boundaries) matches none of the four binning branches in any window —
`start ≥ i ∧ complete ≤ i+step` fails in both windows it spans, the
ends-here branch needs `complete < i+step` strictly, the starts-here
branch needs `start > i` strictly, and the spans-window branch needs
`start < i` strictly — so its id receives total slice duration 0
instead of `end - start = 7_200_000`. -/
theorem C1_counterexample :
    boundaryAlignedTask.complete - boundaryAlignedTask.start = 7200000 ∧
    sliceDurationsForId
      (get_tasks_by_hour_with_overhead 0 7200000 [boundaryAlignedTask]).1
      boundaryAlignedTask.id = 0 ∧
    (0 : Int) ≠ 7200000 := by
  decide

/-- C10 (counterexample): the claim's maximum ranges over tasks that
start inside the half-open window `[i, i+step)`, which includes the
left edge.  A task starting exactly at `i = 0` and ending after the
window's end is an overhead candidate under the claim (value
`i + step - start = 3_600_000`), but the code's branch requires
`start > i` strictly, so the computed overhead for that window is 0. -/
theorem C10_counterexample :
    (get_tasks_by_hour_with_overhead 0 0 [boundaryAlignedTask]).2 = [0, 0] ∧
    specOverheadInclusive 0 [boundaryAlignedTask] = 3600000 ∧
    (0 : Int) ≠ 3600000 := by
  decide

/-- C2 (code bug): `OperationalCarbon.calculate_carbon_footprint_ccf`
computes the per-window static emissions (merged active hours × host
baseline wattage × 0.001, × the window's carbon intensity) into the
local `total_static_cpu_emissions` — under the comment `static energy
--> attribute to carbon emissions` — but never adds it to
`total_carbon_emissions`, and `OperationalCarbonResult` has no field
for it, so the value is discarded.  At the failing input (one one-hour
task on `h1`, baseline 50 W, intensity 100) the aggregation (run with
the claim-C4 `TypeError`s repaired) returns `carbon_emissions = 12.5`,
while the discarded static emissions are 5, so the claimed total 17.5
is not returned. -/
theorem C2_static_emissions_dropped :
    (oc_aggregate h1Maps [(0, [ocHourTask])] (CIInput.scalar 100) 1 "ondemand_minmax"
        none none none none true).map (fun r => r.carbon_emissions) = .ok (25/2) ∧
    oc_total_static_cpu_emissions h1Maps [(0, [ocHourTask])] (CIInput.scalar 100) = .ok 5 ∧
    (25/2 : ℚ) ≠ 25/2 + 5 := by
  refine ⟨?_, ?_, by norm_num⟩
  · simp [oc_aggregate, List.foldlM, Except.instMonad, Except.bind, Except.pure, Except.map,
      dictLookup, List.find?, h1Maps, ocHourTask, oc_estimate_task_energy_consumption_ccf,
      PowerCurve.eval, impactValFor, optTruthy, ciTruthy, assocAdd,
      compute_active_time_per_host, hostActiveEntry, groupIntervalsByHost, groupStep,
      sortByStart, mergeLoop, List.insertionSort, List.orderedInsert, ivOf,
      show containsSub "baseline" "ondemand_minmax" = false from by decide]
    norm_num
  · simp [oc_total_static_cpu_emissions, List.foldlM, Except.instMonad, Except.bind,
      Except.pure, dictLookup, List.find?, h1Maps, ocHourTask,
      compute_active_time_per_host, hostActiveEntry, groupIntervalsByHost, groupStep,
      sortByStart, mergeLoop, List.insertionSort, List.orderedInsert, ivOf]
    norm_num

/-- A successful association-list lookup is a successful Python dict
subscript. -/
theorem dictLookup_ok_of_assocFind {α : Type} {m : List (String × α)} {k : String} {v : α}
    (h : assocFind m k = some v) : dictLookup m k = .ok v := by
  unfold assocFind at h
  unfold dictLookup
  cases hf : m.find? (fun p => p.1 = k) with
  | none => rw [hf] at h; simp at h
  | some p => rw [hf] at h; simp at h; simp [h]

/-- A failed association-list lookup is a Python `KeyError`. -/
theorem dictLookup_err_of_assocFind {α : Type} {m : List (String × α)} {k : String}
    (h : assocFind m k = none) : dictLookup m k = .error (.keyError k) := by
  unfold assocFind at h
  unfold dictLookup
  cases hf : m.find? (fun p => p.1 = k) with
  | none => rfl
  | some p => rw [hf] at h; simp at h

/-- C6 (counterexample): the claim covers every resolver the spec's
PowerModelResolver maps to, including `IchnosCF.get_power_model`
(cited source).  For the model name `ondemand_garbage` — whose
model-type component `garbage` is none of the supported types — that
resolver does not fail: it silently returns the default min-max linear
curve built from the module-level GPG node constants. -/
theorem C6_counterexample :
    pySplit "ondemand_garbage" '_' = ["ondemand", "garbage"] ∧
    "garbage" ∉ (["minmax", "baseline", "linear"] : List String) ∧
    ichnos_get_power_model [] "ondemand_garbage"
      = .linearModel ((node_max_watts - node_min_watts) / 100) node_min_watts :=
  ⟨by decide, by decide, rfl⟩

/-- C6 (amended): in `PowerModel.get_power_model_for_node`, a model
type that is not `minmax`, `baseline` or `linear` and is not a
configured key under the node's governor entry fails with a `KeyError`
(a configuration error), with no fallback; the legacy
`IchnosCF.get_power_model`, however, silently falls back to the
default min-max linear curve whenever the model name is not a key of
its table. -/
theorem C6_power_model_resolution_amended
    (entries govEntries typeEntries : List (String × JVal))
    (node_id model_name governor model_type : String) (rest : List String)
    (hsplit : pySplit model_name '_' = governor :: model_type :: rest)
    (hmt : model_type ∉ (["minmax", "baseline", "linear"] : List String))
    (hnode : assocFind entries node_id = some (JVal.obj govEntries))
    (hgov : assocFind govEntries governor = some (JVal.obj typeEntries))
    (hmiss : assocFind typeEntries model_type = none) :
    get_power_model_for_node (JVal.obj entries) node_id model_name
      = .error (.keyError model_type) ∧
    ∀ (models : List (String × List ℚ)) (name : String),
      models.find? (fun p => p.1 = name) = none →
      ichnos_get_power_model models name
        = .linearModel ((node_max_watts - node_min_watts) / 100) node_min_watts := by
  constructor
  · have h1 : model_type ≠ "minmax" := fun h => hmt (by simp [h])
    have h2 : model_type ≠ "baseline" := fun h => hmt (by simp [h])
    have h3 : model_type ≠ "linear" := fun h => hmt (by simp [h])
    simp [get_power_model_for_node, hsplit, listIdx, h1, h2, h3, JVal.get,
      dictLookup_ok_of_assocFind hnode, dictLookup_ok_of_assocFind hgov,
      dictLookup_err_of_assocFind hmiss, Except.instMonad, Except.bind]
  · intro models name h
    simp [ichnos_get_power_model, h]

/-- C6 (witness): a concrete node with an empty `ondemand` governor
entry and the model name `ondemand_garbage`: resolution fails with
`KeyError('garbage')`, while the legacy resolver with an empty table
returns the default curve. -/
theorem C6_witness :
    get_power_model_for_node
        (JVal.obj [("n1", JVal.obj [("ondemand", JVal.obj [])])]) "n1" "ondemand_garbage"
      = .error (.keyError "garbage") ∧
    ichnos_get_power_model [] "ondemand_garbage"
      = .linearModel ((node_max_watts - node_min_watts) / 100) node_min_watts :=
  ⟨(C6_power_model_resolution_amended
      [("n1", JVal.obj [("ondemand", JVal.obj [])])] [("ondemand", JVal.obj [])] []
      "n1" "ondemand_garbage" "ondemand" "garbage" []
      (by decide) (by decide) rfl rfl rfl).1,
   (C6_power_model_resolution_amended
      [("n1", JVal.obj [("ondemand", JVal.obj [])])] [("ondemand", JVal.obj [])] []
      "n1" "ondemand_garbage" "ondemand" "garbage" []
      (by decide) (by decide) rfl rfl rfl).2 [] "ondemand_garbage" rfl⟩

/-- C7 (counterexample): under a baseline model the code computes
`time_h * model(avg_cpu_usage) * 0.001` with `model` the fitted-linear
curve `(tdp_per_core, 0)` — the task's core count appears nowhere.
Two one-hour tasks at `avg_cpu_usage = 50` differing only in
`cpu_count` (1 vs 2) get the same core energy 0.5 kWh (TDP 10 W),
whereas the claimed formula carries a factor `cpu_count`: with the raw
utilisation factor it predicts 1.0 for the two-core task (and with a
per-core-normalised factor it predicts 0.005), neither of which is the
computed 0.5. -/
theorem C7_counterexample :
    oneCoreTask.cpu_count = 1 ∧ twoCoreTask.cpu_count = 2 ∧
    (oc_estimate_task_energy_consumption_ccf oneCoreTask (.fittedLinear 10 0)
        "ondemand_baseline" 0 32).core_consumption = 1/2 ∧
    (oc_estimate_task_energy_consumption_ccf twoCoreTask (.fittedLinear 10 0)
        "ondemand_baseline" 0 32).core_consumption = 1/2 ∧
    ((1 : ℚ)/2) ≠ 1 * 10 * 50 * 2 * 0.001 ∧
    ((1 : ℚ)/2) ≠ 1 * 10 * (50 / (100 * 2)) * 2 * 0.001 := by
  refine ⟨rfl, rfl, ?_, ?_, by norm_num, by norm_num⟩ <;>
    · simp [oc_estimate_task_energy_consumption_ccf, PowerCurve.eval,
        oneCoreTask, twoCoreTask,
        show containsSub "baseline" "ondemand_baseline" = true from by decide]
      norm_num

/-- C7 (amended): for a task under a baseline-type model (resolved to
the fitted-linear curve `(tdp_per_core, 0)`), the core energy is the
duration in hours times the raw per-core TDP times the task's raw
`avg_cpu_usage` times 0.001 — with no core-count factor; the final
value involves no curve evaluation at the normalised cpu fraction
(the initially computed normalised-fraction energy is overwritten). -/
theorem C7_baseline_energy_amended (task : UniversalTrace)
    (tdp memory_coefficient system_cores : ℚ) (model_name : String)
    (hb : containsSub "baseline" model_name = true) :
    (oc_estimate_task_energy_consumption_ccf task (.fittedLinear tdp 0) model_name
        memory_coefficient system_cores).core_consumption
      = ((task.end_ - task.start : Int) : ℚ) / 1000 / 3600 * (tdp * task.avg_cpu_usage) * 0.001 := by
  simp [oc_estimate_task_energy_consumption_ccf, hb, PowerCurve.eval]

/-- C7 (witness): the amended statement at the one-core task, TDP
10 W, model name `ondemand_baseline`. -/
theorem C7_witness :
    containsSub "baseline" "ondemand_baseline" = true ∧
    (oc_estimate_task_energy_consumption_ccf oneCoreTask (.fittedLinear 10 0)
        "ondemand_baseline" 0 32).core_consumption
      = ((oneCoreTask.end_ - oneCoreTask.start : Int) : ℚ) / 1000 / 3600
        * (10 * oneCoreTask.avg_cpu_usage) * 0.001 :=
  ⟨by decide,
   C7_baseline_energy_amended oneCoreTask 10 0 32 "ondemand_baseline" (by decide)⟩

/-- C4: with a non-empty `unique_nodes` list (and a first node whose
power model resolves), `OperationalCarbon.calculate_carbon_footprint_ccf`
raises `TypeError` in the configuration loop, before any footprint is
computed: the call `get_system_cores(node)` passes one positional
argument while the definition requires `(node_id, model_name)`.
Independently, the keyword arguments the `ProcessedTrace(...)`
construction site would pass for every task of every non-empty window
include four names the dataclass does not declare, so that
construction also raises `TypeError` — the aggregator never returns a
result on a non-trivial input. -/
theorem C4_aggregator_type_errors
    (cfg : JVal) (tasks : List (Int × List UniversalTrace)) (ci : CIInput)
    (pue mc : ℚ) (model_name : String) (n0 : String) (rest : List String) (flag : Bool)
    (hres : ∃ pm, get_power_model_for_node cfg n0 model_name = .ok pm) :
    (∃ msg, oc_calculate_carbon_footprint_ccf cfg tasks ci pue model_name mc (n0 :: rest) flag
        = .error (.typeError msg)) ∧
    (∃ msg, bindKwargs processedTraceFieldNames processedTraceCallKwargs
        = .error (.typeError msg)) := by
  obtain ⟨pm, hpm⟩ := hres
  constructor
  · refine ⟨"positional arguments do not match the parameter list", ?_⟩
    simp [oc_calculate_carbon_footprint_ccf, List.foldlM, hpm,
      get_system_cores_one_arg_call, checkCallArity, get_system_cores_params,
      Except.instMonad, Except.bind, Except.pure]
  · exact ⟨"unexpected keyword argument average_water", by decide⟩

/-- C4 (witness): node `n1` with a resolving `ondemand_minmax` entry,
one window with one task: the call raises `TypeError`. -/
theorem C4_witness :
    (∃ msg, oc_calculate_carbon_footprint_ccf n1Config [(0, [ocHourTask])] (CIInput.scalar 100)
        1 "ondemand_minmax" 0 ["n1"] false = .error (.typeError msg)) ∧
    (∃ msg, bindKwargs processedTraceFieldNames processedTraceCallKwargs
        = .error (.typeError msg)) :=
  C4_aggregator_type_errors n1Config [(0, [ocHourTask])] (CIInput.scalar 100) 1 0
    "ondemand_minmax" "n1" [] false ⟨(.minmaxLinear 50 200, 50), rfl⟩

/-- A window with tasks whose composite key is missing from the
intensity table makes the window body raise `KeyError` at the table
subscript. -/
theorem cfWindowBody_err (tableM : List (String × ℚ)) (pue mnw mxw mc : ℚ) (flag : Bool)
    (acc : CFResult) (p : Int × List CarbonRecord)
    (hne : p.2 ≠ []) (hmiss : tableM.find? (fun q => q.1 = ciKeyOf p.1) = none) :
    cfWindowBody (.table tableM) pue mnw mxw mc flag acc p
      = .error (.keyError (ciKeyOf p.1)) := by
  have hlen : p.2.length > 0 := List.length_pos.mpr hne
  simp [cfWindowBody, hlen, ciValFor, dictLookup, hmiss, Except.instMonad, Except.bind]

/-- The window fold errors as soon as any window with tasks has a
missing key, whatever the accumulated state. -/
theorem cfFold_err (tableM : List (String × ℚ)) (pue mnw mxw mc : ℚ) (flag : Bool) :
    ∀ (l : List (Int × List CarbonRecord)) (init : CFResult),
    (∃ p ∈ l, p.2 ≠ [] ∧ tableM.find? (fun q => q.1 = ciKeyOf p.1) = none) →
    ∃ e, l.foldlM (cfWindowBody (.table tableM) pue mnw mxw mc flag) init = .error e := by
  intro l
  induction l with
  | nil => intro init h; simp at h
  | cons x xs ih =>
    intro init h
    rw [List.foldlM_cons]
    cases hfx : cfWindowBody (.table tableM) pue mnw mxw mc flag init x with
    | error e => exact ⟨e, by simp [hfx, Except.instMonad, Except.bind]⟩
    | ok acc' =>
      rcases h with ⟨p, hp, hne, hmiss⟩
      rcases List.mem_cons.mp hp with rfl | hpxs
      · rw [cfWindowBody_err tableM pue mnw mxw mc flag init p hne hmiss] at hfx
        cases hfx
      · obtain ⟨e, he⟩ := ih acc' ⟨p, hpxs, hne, hmiss⟩
        exact ⟨e, by simp [hfx, Except.instMonad, Except.bind, he]⟩

/-- C5: when the intensity argument is a table and the composite
`MM/DD-HH:MM` key of some window containing at least one task is
absent from it, `calculate_carbon_footprint_ccf` raises (no
interpolation or nearest-key fallback exists in the lookup), so the
whole run produces no footprint value, and the `main` tail that writes
the summary, trace and report files — which runs only after the
computation returns — writes nothing. -/
theorem C5_missing_intensity_key_fatal
    (tasks_by_hour : List (Int × List CarbonRecord)) (tableM : List (String × ℚ))
    (pue min_watts max_watts memory_coefficient : ℚ) (flag : Bool) (workflow : String)
    (h : ∃ p ∈ tasks_by_hour, p.2 ≠ [] ∧
      tableM.find? (fun q => q.1 = ciKeyOf p.1) = none) :
    (calculate_carbon_footprint_ccf tasks_by_hour (.table tableM) pue min_watts max_watts
        memory_coefficient flag).toOption = none ∧
    (cfMainWrites tasks_by_hour (.table tableM) pue min_watts max_watts
        memory_coefficient flag workflow).toOption = none := by
  obtain ⟨e, he⟩ := cfFold_err tableM pue min_watts max_watts memory_coefficient flag
    tasks_by_hour ⟨0, 0, 0, 0, 0, [], []⟩ h
  have hc : calculate_carbon_footprint_ccf tasks_by_hour (.table tableM) pue min_watts
      max_watts memory_coefficient flag = .error e := he
  refine ⟨by simp [hc, Except.toOption], ?_⟩
  simp [cfMainWrites, hc, Except.instMonad, Except.bind, Except.toOption]

/-- C5 (witness): one window at epoch 0 holding one task, against a
table containing only the key `02/02-00:00`: no output is produced. -/
theorem C5_witness :
    (calculate_carbon_footprint_ccf [(0, [scenarioATask])]
        (.table [("02/02-00:00", 250)]) 1 50 200 0.392 false).toOption = none ∧
    (cfMainWrites [(0, [scenarioATask])] (.table [("02/02-00:00", 250)])
        1 50 200 0.392 false "wf").toOption = none :=
  C5_missing_intensity_key_fatal [(0, [scenarioATask])] [("02/02-00:00", 250)]
    1 50 200 0.392 false "wf" ⟨(0, [scenarioATask]), by decide, by decide, by decide⟩

/-- C8: two windows (epoch 0 and 1_800_000 ms) holding the two slices
of a split task, with per-window table intensities `c1` and `c2`: the
total carbon emissions are each slice's PUE-adjusted energy times its
own window's intensity, summed; and a per-slice-weighted total of this
form never equals `total_energy × average(c1, c2)` when the slice
energies and the intensities both differ. -/
theorem C8_per_window_intensity (t1 t2 : CarbonRecord) (pue mnw mxw mc c1 c2 : ℚ) :
    (calculate_carbon_footprint_ccf [(0, [t1]), (1800000, [t2])]
        (.table [("01/01-00:00", c1), ("01/01-00:30", c2)]) pue mnw mxw mc false).map
      (fun r => r.total_carbon_emissions)
    = .ok (((estimate_task_energy_consumption_ccf t1 mnw mxw mc).1
          + (estimate_task_energy_consumption_ccf t1 mnw mxw mc).2) * pue * c1
        + ((estimate_task_energy_consumption_ccf t2 mnw mxw mc).1
          + (estimate_task_energy_consumption_ccf t2 mnw mxw mc).2) * pue * c2) ∧
    (∀ A B : ℚ, A ≠ B → c1 ≠ c2 → A * c1 + B * c2 ≠ (A + B) * ((c1 + c2) / 2)) := by
  constructor
  · have hk1 : ciKeyOf 0 = "01/01-00:00" := by decide
    have hk2 : ciKeyOf 1800000 = "01/01-00:30" := by decide
    simp [calculate_carbon_footprint_ccf, cfWindowBody, List.foldlM, Except.instMonad,
      Except.bind, Except.pure, Except.map, ciValFor, dictLookup, List.find?, hk1, hk2]
    ring
  · intro A B hA hc heq
    have h2 : (A - B) * (c1 - c2) = 0 := by linear_combination 2 * heq
    rcases mul_eq_zero.mp h2 with h3 | h3
    · exact hA (sub_eq_zero.mp h3)
    · exact hc (sub_eq_zero.mp h3)

/-- C8 (witness): the weighted-by-window form differs from the
averaged form at slice energies 1/16 and 1/10 kWh and intensities 100
and 200. -/
theorem C8_witness :
    (1 : ℚ)/16 * 100 + 1/10 * 200 ≠ ((1 : ℚ)/16 + 1/10) * ((100 + 200) / 2) :=
  (C8_per_window_intensity halfSliceA halfSliceB 1 50 200 0.392 100 200).2
    (1/16) (1/10) (by norm_num) (by norm_num)

/-- The hard-coded window width, as a numeral. -/
theorem step_eq : step = 3600000 := rfl

/-- Every slice of a well-formed task has positive duration, whichever
branch produced it. -/
theorem sliceTask_realtime_pos {i : Int} {t s : CarbonRecord}
    (h : sliceTask i t = some s) (hd : t.start < t.complete)
    (hr : t.realtime = t.complete - t.start) : 0 < s.realtime := by
  unfold sliceTask at h
  split_ifs at h <;> (cases h; simp only [hr, step_eq] at *) <;> omega

/-- Slicing never changes the task id. -/
theorem sliceTask_id {i : Int} {t s : CarbonRecord} (h : sliceTask i t = some s) :
    s.id = t.id := by
  unfold sliceTask at h
  split_ifs at h <;> · cases h; rfl

/-- For a well-formed task whose endpoints do not collide with the
window boundaries in the two excluded ways, the slice duration in
window `i` is exactly the length of `[start, complete) ∩ [i, i+step)`. -/
theorem sliceDurOf_eq_ilen (i : Int) (t : CarbonRecord)
    (hd : t.start < t.complete) (hr : t.realtime = t.complete - t.start)
    (ha : i = t.start → t.complete ≤ i + step)
    (hb : i + step = t.complete → i ≤ t.start) :
    sliceDurOf i t = ilen t.start t.complete i := by
  unfold sliceDurOf sliceTask ilen
  simp only [step_eq] at *
  split_ifs with h1 h2 h3 h4 <;> simp only [hr] <;> omega

/-- Telescoping sum of the window-intersection lengths over a grid of
`n` consecutive windows starting at `w0 ≤ p`. -/
theorem ilen_sum (p q w0 : Int) (hw0 : w0 ≤ p) (n : ℕ) :
    ((List.range n).map (fun (k : ℕ) => ilen p q (w0 + (k : Int) * step))).sum
      = max 0 (min q (w0 + (n : Int) * step) - p) := by
  induction n with
  | zero => simp [ilen]; omega
  | succ n ih =>
    rw [List.range_succ, List.map_append, List.sum_append, ih]
    simp only [List.map_cons, List.map_nil, List.sum_cons, List.sum_nil, ilen, step_eq]
    push_cast
    omega

/-- Per-task duration conservation over the visited windows, under the
containment and non-alignment hypotheses. -/
theorem sum_sliceDur (start_hour end_hour : Int) (t : CarbonRecord)
    (hd : t.start < t.complete) (hr : t.realtime = t.complete - t.start)
    (hlo : start_hour - step ≤ t.start)
    (hhi : t.complete ≤ start_hour - step + (numWindows start_hour end_hour : Int) * step)
    (ha : ¬(step ∣ (t.start - (start_hour - step)) ∧ t.start + step < t.complete))
    (hb : ¬(step ∣ (t.complete - (start_hour - step)) ∧ t.start < t.complete - step)) :
    ((windowEdges start_hour end_hour).map (fun i => sliceDurOf i t)).sum
      = t.complete - t.start := by
  unfold windowEdges
  rw [List.map_map]
  have hcong : ∀ k ∈ List.range (numWindows start_hour end_hour),
      ((fun i => sliceDurOf i t) ∘ fun (k : ℕ) => start_hour - step + (k : Int) * step) k
        = ilen t.start t.complete (start_hour - step + (k : Int) * step) := by
    intro k _
    apply sliceDurOf_eq_ilen _ _ hd hr
    · intro heq
      by_contra hlt
      simp only [step_eq] at *
      exact ha ⟨⟨(k : Int), by omega⟩, by omega⟩
    · intro heq
      by_contra hlt
      simp only [step_eq] at *
      exact hb ⟨⟨(k : Int) + 1, by omega⟩, by omega⟩
  rw [List.map_congr_left hcong, ilen_sum t.start t.complete _ hlo]
  simp only [step_eq] at *
  omega

/-- A window's slice list contributes nothing to an id that belongs to
none of the tasks. -/
theorem filter_id_sum_zero (i : Int) (tasks : List CarbonRecord) (tid : String)
    (hnotin : ∀ u ∈ tasks, u.id ≠ tid) :
    (((tasks.filterMap (sliceTask i)).filter (fun s => s.id = tid)).map
      (fun s => s.realtime)).sum = 0 := by
  induction tasks with
  | nil => rfl
  | cons x xs ih =>
    have hx : x.id ≠ tid := hnotin x (List.mem_cons_self x xs)
    have hxs : ∀ u ∈ xs, u.id ≠ tid := fun u hu => hnotin u (List.mem_cons_of_mem x hu)
    rw [List.filterMap_cons]
    cases hslice : sliceTask i x with
    | none => exact ih hxs
    | some s =>
      have hsid : s.id ≠ tid := by rw [sliceTask_id hslice]; exact hx
      simp only [List.filter_cons, hsid, decide_eq_true_eq, if_neg hsid]
      exact ih hxs

/-- With pairwise-distinct ids, the slice durations a window assigns
to `t.id` sum to exactly `t`'s slice duration there. -/
theorem filter_id_sum_mem (i : Int) (tasks : List CarbonRecord) (t : CarbonRecord)
    (ht : t ∈ tasks) (hids : (tasks.map CarbonRecord.id).Nodup) :
    (((tasks.filterMap (sliceTask i)).filter (fun s => s.id = t.id)).map
      (fun s => s.realtime)).sum = sliceDurOf i t := by
  induction tasks with
  | nil => cases ht
  | cons x xs ih =>
    rw [List.map_cons, List.nodup_cons] at hids
    obtain ⟨hxnot, hxs⟩ := hids
    rw [List.filterMap_cons]
    rcases List.mem_cons.mp ht with rfl | htxs
    · have hnone : ∀ u ∈ xs, u.id ≠ t.id := by
        intro u hu he
        exact hxnot (he ▸ List.mem_map_of_mem CarbonRecord.id hu)
      cases hslice : sliceTask i t with
      | none =>
        rw [filter_id_sum_zero i xs t.id hnone]
        simp [sliceDurOf, hslice]
      | some s =>
        have hsid : s.id = t.id := sliceTask_id hslice
        simp [List.filter_cons, hsid, sliceDurOf, hslice,
          filter_id_sum_zero i xs t.id hnone]
    · have hxid : x.id ≠ t.id := by
        intro he
        exact hxnot (he ▸ List.mem_map_of_mem CarbonRecord.id htxs)
      cases hslice : sliceTask i x with
      | none => exact ih htxs hxs
      | some s =>
        have hsid : s.id ≠ t.id := by rw [sliceTask_id hslice]; exact hxid
        simp only [List.filter_cons, decide_eq_true_eq, if_neg hsid]
        exact ih htxs hxs

/-- C1 (amended): for well-formed tasks (`end > start`, `realtime =
end - start`) with pairwise-distinct ids, a task contained in the
binned range conserves its duration — the slice durations credited to
its id across all windows sum to `end - start` — provided neither (a)
its start lies on a window boundary while it runs past that window's
end, nor (b) its end lies on a window boundary while it starts before
that window's start (the counterexample shows the four strict/non-
strict branch guards drop such slices).  Unconditionally, every slice
placed in any window has duration > 0. -/
theorem C1_duration_conservation_amended
    (start_hour end_hour : Int) (tasks : List CarbonRecord)
    (hwf : ∀ u ∈ tasks, u.start < u.complete ∧ u.realtime = u.complete - u.start)
    (hids : (tasks.map CarbonRecord.id).Nodup)
    (t : CarbonRecord) (ht : t ∈ tasks)
    (hlo : start_hour - step ≤ t.start)
    (hhi : t.complete ≤ start_hour - step + (numWindows start_hour end_hour : Int) * step)
    (ha : ¬(step ∣ (t.start - (start_hour - step)) ∧ t.start + step < t.complete))
    (hb : ¬(step ∣ (t.complete - (start_hour - step)) ∧ t.start < t.complete - step)) :
    sliceDurationsForId (get_tasks_by_hour_with_overhead start_hour end_hour tasks).1 t.id
      = t.complete - t.start ∧
    ∀ w ∈ (get_tasks_by_hour_with_overhead start_hour end_hour tasks).1,
      ∀ s ∈ w.2, 0 < s.realtime := by
  obtain ⟨hd, hr⟩ := hwf t ht
  constructor
  · unfold sliceDurationsForId get_tasks_by_hour_with_overhead
    rw [← sum_sliceDur start_hour end_hour t hd hr hlo hhi ha hb]
    simp only [List.map_map]
    apply congrArg List.sum
    apply List.map_congr_left
    intro i _
    simp only [Function.comp_apply]
    exact filter_id_sum_mem i tasks t ht hids
  · intro w hw s hs
    simp only [get_tasks_by_hour_with_overhead] at hw
    obtain ⟨i, hi, rfl⟩ := List.mem_map.mp hw
    obtain ⟨u, hu, hslice⟩ := List.mem_filterMap.mp hs
    obtain ⟨hud, hur⟩ := hwf u hu
    exact sliceTask_realtime_pos hslice hud hur

/-- C1 (witness): the split task (100 to 3_700_100 ms) binned over
`[start_hour, end_hour] = [0, 3_600_000]` receives slices summing to
its full 3_700_000 ms duration. -/
theorem C1_witness :
    sliceDurationsForId (get_tasks_by_hour_with_overhead 0 3600000 [splitTask]).1
      splitTask.id = 3700000 :=
  (C1_duration_conservation_amended 0 3600000 [splitTask]
      (by decide) (by decide) splitTask (by decide)
      (by decide) (by decide) (by decide) (by decide)).1.trans (by decide)

/-- The running-maximum accumulation of the overhead loop equals a
fold of `max` over the strictly-inside overhead candidates. -/
theorem overhead_fold (i : Int) (l : List CarbonRecord) : ∀ acc : Int,
    l.foldl
      (fun acc t =>
        if t.start > i ∧ t.start < i + step ∧ t.complete > i + step ∧ i + step - t.start > acc
        then i + step - t.start else acc)
      acc
      = ((l.filter (fun t =>
          decide (i < t.start ∧ t.start < i + step ∧ i + step < t.complete))).map
        (fun t => i + step - t.start)).foldl max acc := by
  induction l with
  | nil => intro acc; rfl
  | cons x xs ih =>
    intro acc
    rw [List.foldl_cons, List.filter_cons]
    by_cases hc : i < x.start ∧ x.start < i + step ∧ i + step < x.complete
    · have hco : (decide (i < x.start ∧ x.start < i + step ∧ i + step < x.complete)) = true := by
        simp [hc]
      rw [hco, if_pos rfl]
      simp only [List.map_cons, List.foldl_cons]
      have hstepv : (if x.start > i ∧ x.start < i + step ∧ x.complete > i + step ∧
          i + step - x.start > acc then i + step - x.start else acc)
          = max acc (i + step - x.start) := by
        obtain ⟨h1, h2, h3⟩ := hc
        split_ifs with h
        · omega
        · omega
      rw [hstepv, ih]
    · have hco : (decide (i < x.start ∧ x.start < i + step ∧ i + step < x.complete)) = false := by
        simp only [decide_eq_false_iff_not]
        exact hc
      rw [hco, if_neg Bool.false_ne_true]
      have hstepv : (if x.start > i ∧ x.start < i + step ∧ x.complete > i + step ∧
          i + step - x.start > acc then i + step - x.start else acc) = acc := by
        split_ifs with h
        · exact absurd ⟨h.1, h.2.1, h.2.2.1⟩ hc
        · rfl
      rw [hstepv, ih]

/-- The code's per-window overhead is the maximum of
`i + step - start` over tasks starting strictly inside the window and
ending past it (`0` when there are none). -/
theorem overheadFor_eq_max (i : Int) (tasks : List CarbonRecord) :
    overheadFor i tasks = strictOverheadMax i tasks :=
  overhead_fold i tasks 0

/-- C10 (amended): every entry of the returned overhead list is the
maximum, over tasks with `i < start < i + step` (left edge excluded —
the counterexample shows a task starting exactly at `i` is not
counted) and `complete > i + step`, of `i + step - start`, with 0
when no such task exists; the width is the hard-coded 3_600_000 ms,
so a task starting 10 ms into its window with a late end contributes
3_599_990. -/
theorem C10_overhead_amended (start_hour end_hour : Int) (tasks : List CarbonRecord)
    (k : ℕ) (hk : k < numWindows start_hour end_hour) :
    (get_tasks_by_hour_with_overhead start_hour end_hour tasks).2[k]?
      = some (strictOverheadMax (start_hour - step + (k : Int) * step) tasks) := by
  unfold get_tasks_by_hour_with_overhead windowEdges
  simp only [List.map_map, List.getElem?_map, List.getElem?_range hk]
  simp [Function.comp, overheadFor_eq_max]

/-- C10 (witness): over `[start_hour, end_hour] = [0, 0]` the window
at index 1 starts at 0; the task starting at 10 ms with end past the
window yields overhead 3_599_990. -/
theorem C10_witness :
    1 < numWindows 0 0 ∧
    (get_tasks_by_hour_with_overhead 0 0 [lateStartTask]).2[1]? = some 3599990 :=
  ⟨by decide, (C10_overhead_amended 0 0 [lateStartTask] 1 (by decide)).trans (by decide)⟩

/-- No point is covered by an empty interval list. -/
theorem coversPt_nil (x : ℚ) : coversPt [] x ↔ False := by
  simp [coversPt]

/-- Point coverage over a cons splits off the head interval. -/
theorem coversPt_cons (a : ℚ × ℚ) (l : List (ℚ × ℚ)) (x : ℚ) :
    coversPt (a :: l) x ↔ (a.1 ≤ x ∧ x < a.2) ∨ coversPt l x := by
  simp [coversPt, List.mem_cons, or_and_right, exists_or]

/-- Absorbing an interval `[s, e)` with `cs ≤ s ≤ ce` into `[cs, ce)`
by extending the right end to `max ce e` covers exactly the union of
the two intervals. -/
theorem ico_absorb {cs s ce e x : ℚ} (hcs : cs ≤ s) (hse : s ≤ ce) :
    (cs ≤ x ∧ x < max ce e) ↔ (cs ≤ x ∧ x < ce) ∨ (s ≤ x ∧ x < e) := by
  rcases le_total ce e with h | h
  · rw [max_eq_right h]
    constructor
    · rintro ⟨h1, h2⟩
      rcases lt_or_le x ce with hx | hx
      · exact Or.inl ⟨h1, hx⟩
      · exact Or.inr ⟨le_trans hse hx, h2⟩
    · rintro (⟨h1, h2⟩ | ⟨h1, h2⟩)
      · exact ⟨h1, lt_of_lt_of_le h2 h⟩
      · exact ⟨le_trans hcs h1, h2⟩
  · rw [max_eq_left h]
    constructor
    · rintro ⟨h1, h2⟩
      exact Or.inl ⟨h1, h2⟩
    · rintro (⟨h1, h2⟩ | ⟨h1, h2⟩)
      · exact ⟨h1, h2⟩
      · exact ⟨le_trans hcs h1, lt_of_lt_of_le h2 h⟩

/-- The merge loop always emits a first interval starting at `cs` with
a right end at least `ce`. -/
theorem mergeLoop_head (l : List (ℚ × ℚ)) : ∀ cs ce : ℚ,
    ∃ ce' tl, mergeLoop cs ce l = (cs, ce') :: tl ∧ ce ≤ ce' := by
  induction l with
  | nil => intro cs ce; exact ⟨ce, [], rfl, le_refl ce⟩
  | cons iv rest ih =>
    intro cs ce
    unfold mergeLoop
    by_cases hle : iv.1 ≤ ce
    · obtain ⟨ce', tl, heq, hge⟩ := ih cs (max ce iv.2)
      exact ⟨ce', tl, by rw [if_pos hle]; exact heq, le_trans (le_max_left _ _) hge⟩
    · exact ⟨ce, mergeLoop iv.1 iv.2 rest, by rw [if_neg hle], le_refl ce⟩

/-- The merged intervals cover exactly the union of the current
interval and the remaining (start-sorted) intervals. -/
theorem mergeLoop_covers (l : List (ℚ × ℚ)) : ∀ cs ce : ℚ,
    (∀ p ∈ l, cs ≤ p.1) → l.Sorted (fun a b => a.1 ≤ b.1) →
    ∀ x : ℚ, coversPt (mergeLoop cs ce l) x ↔ (cs ≤ x ∧ x < ce) ∨ coversPt l x := by
  induction l with
  | nil =>
    intro cs ce _ _ x
    simp [mergeLoop, coversPt]
  | cons iv rest ih =>
    intro cs ce hcs hsort x
    have hsr := (List.sorted_cons.mp hsort).2
    have hivr := (List.sorted_cons.mp hsort).1
    have hcsiv : cs ≤ iv.1 := hcs iv (List.mem_cons_self _ _)
    unfold mergeLoop
    by_cases hle : iv.1 ≤ ce
    · rw [if_pos hle, ih cs (max ce iv.2) (fun p hp => le_trans hcsiv (hivr p hp)) hsr x,
        coversPt_cons, ico_absorb hcsiv hle, or_assoc]
    · rw [if_neg hle, coversPt_cons, ih iv.1 iv.2 hivr hsr x, coversPt_cons]

/-- The merged intervals are valid and strictly separated (each ends
before the next begins). -/
theorem mergeLoop_chain (l : List (ℚ × ℚ)) : ∀ cs ce : ℚ, cs ≤ ce →
    (∀ p ∈ l, cs ≤ p.1) → (∀ p ∈ l, p.1 ≤ p.2) → l.Sorted (fun a b => a.1 ≤ b.1) →
    (mergeLoop cs ce l).Chain' (fun a b => a.2 < b.1) ∧
    ∀ p ∈ mergeLoop cs ce l, p.1 ≤ p.2 := by
  induction l with
  | nil =>
    intro cs ce hce _ _ _
    refine ⟨List.chain'_singleton _, ?_⟩
    intro p hp
    rcases List.mem_singleton.mp hp with rfl
    exact hce
  | cons iv rest ih =>
    intro cs ce hce hcs hval hsort
    have hsr := (List.sorted_cons.mp hsort).2
    have hivr := (List.sorted_cons.mp hsort).1
    have hcsiv : cs ≤ iv.1 := hcs iv (List.mem_cons_self _ _)
    have hive : iv.1 ≤ iv.2 := hval iv (List.mem_cons_self _ _)
    unfold mergeLoop
    by_cases hle : iv.1 ≤ ce
    · rw [if_pos hle]
      exact ih cs (max ce iv.2) (le_trans hce (le_max_left _ _))
        (fun p hp => le_trans hcsiv (hivr p hp))
        (fun p hp => hval p (List.mem_cons_of_mem _ hp)) hsr
    · rw [if_neg hle]
      obtain ⟨chain, valid⟩ := ih iv.1 iv.2 hive hivr
        (fun p hp => hval p (List.mem_cons_of_mem _ hp)) hsr
      obtain ⟨ce', tl, heq, _⟩ := mergeLoop_head rest iv.1 iv.2
      constructor
      · rw [List.chain'_cons']
        refine ⟨?_, chain⟩
        intro b hb
        rw [heq] at hb
        simp at hb
        rw [← hb]
        simpa using lt_of_not_le hle
      · intro p hp
        rcases List.mem_cons.mp hp with rfl | hpm
        · exact hce
        · exact valid p hpm

/-- Association lookup in the empty list. -/
theorem assocFind_nil {α : Type} (k : String) :
    assocFind ([] : List (String × α)) k = none := rfl

/-- Association lookup finds a matching head. -/
theorem assocFind_cons_pos {α : Type} (p : String × α) (acc : List (String × α)) (k : String)
    (h : p.1 = k) : assocFind (p :: acc) k = some p.2 := by
  simp [assocFind, List.find?_cons_of_pos, h]

/-- Association lookup skips a non-matching head. -/
theorem assocFind_cons_neg {α : Type} (p : String × α) (acc : List (String × α)) (k : String)
    (h : ¬ p.1 = k) : assocFind (p :: acc) k = assocFind acc k := by
  unfold assocFind
  rw [List.find?_cons_of_neg]
  simp [h]

/-- Updating the entry of key `k` in place only changes the lookup at
`k`. -/
theorem assocFind_map_update (acc : List (String × List (ℚ × ℚ))) (k host : String)
    (v : List (ℚ × ℚ)) :
    assocFind (acc.map (fun p => if p.1 = k then (p.1, p.2 ++ v) else p)) host
      = if host = k then (assocFind acc host).map (fun l => l ++ v) else assocFind acc host := by
  induction acc with
  | nil => by_cases h : host = k <;> simp [assocFind, h]
  | cons p acc ih =>
    rw [List.map_cons]
    by_cases hph : p.1 = host
    · by_cases hpk : p.1 = k
      · rw [if_pos hpk, assocFind_cons_pos _ _ _ hph,
          assocFind_cons_pos (p.1, p.2 ++ v) _ host hph,
          if_pos (show host = k by rw [← hph, hpk])]
        rfl
      · rw [if_neg hpk, assocFind_cons_pos _ _ _ hph, assocFind_cons_pos _ _ _ hph,
          if_neg (show ¬ host = k by rw [← hph]; exact hpk)]
    · by_cases hpk : p.1 = k
      · rw [if_pos hpk, assocFind_cons_neg _ _ _ hph,
          assocFind_cons_neg (p.1, p.2 ++ v) _ host hph, ih]
      · rw [if_neg hpk, assocFind_cons_neg _ _ _ hph, assocFind_cons_neg _ _ _ hph, ih]

/-- Appending a single new entry only affects the lookup of its key,
and only when that key was absent. -/
theorem assocFind_append_one {α : Type} (acc : List (String × α)) (k host : String) (v : α) :
    assocFind (acc ++ [(k, v)]) host
      = match assocFind acc host with
        | some x => some x
        | none => if host = k then some v else none := by
  induction acc with
  | nil =>
    by_cases h : host = k
    · simp [assocFind, List.find?, h]
    · rw [List.nil_append, assocFind_nil, assocFind_cons_neg _ _ _ (fun hh => h hh.symm),
        assocFind_nil]
      simp [h]
  | cons p acc ih =>
    rw [List.cons_append]
    by_cases hph : p.1 = host
    · rw [assocFind_cons_pos _ _ _ hph, assocFind_cons_pos _ _ _ hph]
    · rw [assocFind_cons_neg _ _ _ hph, assocFind_cons_neg _ _ _ hph, ih]

/-- The membership test of the grouping step agrees with lookup. -/
theorem any_key_iff {α : Type} (acc : List (String × α)) (k : String) :
    (acc.any (fun p => p.1 = k)) = true ↔ (assocFind acc k).isSome := by
  induction acc with
  | nil => simp [assocFind]
  | cons p acc ih =>
    by_cases hpk : p.1 = k
    · simp [assocFind, List.find?, hpk]
    · rw [assocFind_cons_neg _ _ _ hpk]
      simp only [List.any_cons, decide_eq_true_eq, hpk, decide_False, Bool.false_or]
      exact ih

/-- Effect of one grouping step on a host lookup: the task's interval
is appended to its host's entry (created if new); other hosts are
untouched. -/
theorem assocFind_groupStep (acc : List (String × List (ℚ × ℚ))) (t : UniversalTrace)
    (host : String) :
    assocFind (groupStep acc t) host
      = if host = t.hostname then some ((assocFind acc host).getD [] ++ [ivOf t])
        else assocFind acc host := by
  unfold groupStep
  by_cases hany : (acc.any (fun p => p.1 = t.hostname)) = true
  · rw [if_pos hany, assocFind_map_update]
    by_cases hh : host = t.hostname
    · rw [if_pos hh, if_pos hh]
      obtain ⟨ivs, hivs⟩ := Option.isSome_iff_exists.mp ((any_key_iff acc t.hostname).mp hany)
      rw [hh, hivs]
      rfl
    · rw [if_neg hh, if_neg hh]
  · rw [if_neg hany, assocFind_append_one]
    have hnone : assocFind acc t.hostname = none := by
      cases ho : assocFind acc t.hostname with
      | none => rfl
      | some x => exact absurd ((any_key_iff acc t.hostname).mpr (by rw [ho]; rfl)) hany
    by_cases hh : host = t.hostname
    · rw [hh, hnone]
      simp [ivOf]
    · cases ho : assocFind acc host with
      | none => simp [hh]
      | some x => simp [hh]

/-- The grouping fold accumulates, per host, exactly the interval
pairs of that host's tasks in order. -/
theorem group_find_aux (l : List UniversalTrace) : ∀ (acc : List (String × List (ℚ × ℚ)))
    (host : String),
    assocFind (l.foldl groupStep acc) host
      = if (l.filter (fun t => t.hostname = host)).isEmpty ∧ assocFind acc host = none
        then none
        else some ((assocFind acc host).getD []
          ++ ((l.filter (fun t => t.hostname = host)).map ivOf)) := by
  induction l with
  | nil =>
    intro acc host
    cases ho : assocFind acc host with
    | none => simp [ho]
    | some x => simp [ho]
  | cons t l ih =>
    intro acc host
    rw [List.foldl_cons, ih (groupStep acc t) host, assocFind_groupStep, List.filter_cons]
    by_cases hh : t.hostname = host
    · subst hh
      cases ho : assocFind acc t.hostname with
      | none => simp [ho]
      | some ivs => simp [ho]
    · have h2 : ¬ host = t.hostname := fun he => hh he.symm
      simp [hh, h2]

/-- A host's entry in the grouping is the interval list of its tasks. -/
theorem group_find (tasks : List UniversalTrace) (host : String) :
    assocFind (groupIntervalsByHost tasks) host
      = if (tasks.filter (fun t => t.hostname = host)).isEmpty then none
        else some ((tasks.filter (fun t => t.hostname = host)).map ivOf) := by
  unfold groupIntervalsByHost
  rw [group_find_aux tasks [] host]
  simp [assocFind]

/-- `sortByStart` sorts by interval start. -/
theorem sortByStart_sorted (l : List (ℚ × ℚ)) :
    (sortByStart l).Sorted (fun a b => a.1 ≤ b.1) :=
  List.sorted_insertionSort _ l

/-- `sortByStart` permutes its input. -/
theorem sortByStart_perm (l : List (ℚ × ℚ)) : (sortByStart l).Perm l :=
  List.perm_insertionSort _ l

/-- Point coverage only depends on the multiset of intervals. -/
theorem coversPt_perm {l l' : List (ℚ × ℚ)} (h : l.Perm l') (x : ℚ) :
    coversPt l x ↔ coversPt l' x := by
  unfold coversPt
  constructor <;> rintro ⟨p, hp, h1, h2⟩
  · exact ⟨p, h.mem_iff.mp hp, h1, h2⟩
  · exact ⟨p, h.mem_iff.mpr hp, h1, h2⟩

/-- A successful Python dict subscript is a successful association
lookup. -/
theorem assocFind_of_dictLookup {α : Type} {m : List (String × α)} {k : String} {v : α}
    (h : dictLookup m k = .ok v) : assocFind m k = some v := by
  unfold dictLookup at h
  unfold assocFind
  cases hf : m.find? (fun p => p.1 = k) with
  | none => rw [hf] at h; cases h
  | some p => rw [hf] at h; cases h; rfl

/-- One grouping step keeps the host keys duplicate-free. -/
theorem groupStep_keys (acc : List (String × List (ℚ × ℚ))) (t : UniversalTrace)
    (h : (acc.map Prod.fst).Nodup) : ((groupStep acc t).map Prod.fst).Nodup := by
  unfold groupStep
  by_cases hany : (acc.any (fun p => p.1 = t.hostname)) = true
  · rw [if_pos hany, List.map_map]
    have hkeys : (Prod.fst ∘ fun p : String × List (ℚ × ℚ) =>
        if p.1 = t.hostname then (p.1, p.2 ++ [((t.start : ℚ), (t.end_ : ℚ))]) else p)
        = Prod.fst := by
      funext p
      by_cases hp : p.1 = t.hostname <;> simp [hp]
    rw [hkeys]
    exact h
  · rw [if_neg hany, List.map_append]
    have hnotin : t.hostname ∉ acc.map Prod.fst := by
      intro hmem
      obtain ⟨p, hp, hpk⟩ := List.mem_map.mp hmem
      exact hany (List.any_eq_true.mpr ⟨p, hp, by simp [hpk]⟩)
    simp [List.nodup_append, h, hnotin]

/-- The grouping fold keeps the host keys duplicate-free. -/
theorem group_keys_nodup_aux (l : List UniversalTrace) :
    ∀ acc : List (String × List (ℚ × ℚ)), (acc.map Prod.fst).Nodup →
    (((l.foldl groupStep acc).map Prod.fst)).Nodup := by
  induction l with
  | nil => intro acc h; exact h
  | cons t l ih =>
    intro acc h
    rw [List.foldl_cons]
    exact ih (groupStep acc t) (groupStep_keys acc t h)

/-- The grouping has one entry per host. -/
theorem group_keys_nodup (tasks : List UniversalTrace) :
    ((groupIntervalsByHost tasks).map Prod.fst).Nodup :=
  group_keys_nodup_aux tasks [] List.nodup_nil

/-- With duplicate-free keys, membership determines the lookup. -/
theorem assocFind_of_mem_nodup {α : Type} :
    ∀ (m : List (String × α)) (g : String × α), g ∈ m → ((m.map Prod.fst).Nodup) →
    assocFind m g.1 = some g.2 := by
  intro m
  induction m with
  | nil => intro g hg _; cases hg
  | cons p m ih =>
    intro g hg hn
    rw [List.map_cons, List.nodup_cons] at hn
    rcases List.mem_cons.mp hg with rfl | hgm
    · exact assocFind_cons_pos _ _ _ rfl
    · have hne : ¬ p.1 = g.1 := by
        intro he
        exact hn.1 (he ▸ List.mem_map_of_mem Prod.fst hgm)
      rw [assocFind_cons_neg _ _ _ hne]
      exact ih g hgm hn.2

/-- Looking up a host in `compute_active_time_per_host` yields the
per-host merged-union active time: there is a list of valid, strictly
separated merged intervals covering exactly the union of that host's
task intervals, whose total length (ms), divided by 1000 and 3600, is
the returned value. -/
theorem compute_active_lookup_union (tasks : List UniversalTrace)
    (hval : ∀ t ∈ tasks, (t.start : ℚ) ≤ (t.end_ : ℚ)) :
    ∀ (host : String) (v : ℚ),
      dictLookup (compute_active_time_per_host tasks) host = .ok v →
      ∃ merged : List (ℚ × ℚ),
        (∀ x : ℚ, coversPt merged x ↔
          ∃ t ∈ tasks, t.hostname = host ∧ (t.start : ℚ) ≤ x ∧ x < (t.end_ : ℚ)) ∧
        merged.Chain' (fun a b => a.2 < b.1) ∧
        (∀ p ∈ merged, p.1 ≤ p.2) ∧
        v = ((merged.map (fun q => q.2 - q.1)).sum) / 1000 / 3600 := by
  intro host v h
  have haf : assocFind (compute_active_time_per_host tasks) host = some v :=
    assocFind_of_dictLookup h
  unfold assocFind at haf
  obtain ⟨pr, hfind, hpr2⟩ := Option.map_eq_some'.mp haf
  have hpr_mem : pr ∈ compute_active_time_per_host tasks := List.mem_of_find?_eq_some hfind
  have hpr_key : pr.1 = host := by
    have h2 := List.find?_some hfind
    simpa using h2
  unfold compute_active_time_per_host at hpr_mem
  obtain ⟨g, hg_mem, hg_eq⟩ := List.mem_filterMap.mp hpr_mem
  unfold hostActiveEntry at hg_eq
  cases hsort_eq : sortByStart g.2 with
  | nil => rw [hsort_eq] at hg_eq; cases hg_eq
  | cons c rest =>
    rw [hsort_eq] at hg_eq
    have hg1 : g.1 = pr.1 := congrArg Prod.fst (Option.some.inj hg_eq)
    have hv : pr.2 = ((mergeLoop c.1 c.2 rest).map (fun q => q.2 - q.1)).sum / 1000 / 3600 :=
      (congrArg Prod.snd (Option.some.inj hg_eq)).symm
    have hgfind : assocFind (groupIntervalsByHost tasks) g.1 = some g.2 :=
      assocFind_of_mem_nodup _ g hg_mem (group_keys_nodup tasks)
    rw [group_find] at hgfind
    by_cases hemp : (tasks.filter (fun t => t.hostname = g.1)).isEmpty
    · rw [if_pos hemp] at hgfind; cases hgfind
    · rw [if_neg hemp] at hgfind
      have hg2 : g.2 = (tasks.filter (fun t => t.hostname = g.1)).map ivOf :=
        (Option.some.inj hgfind).symm
      have hghost : g.1 = host := hg1.trans hpr_key
      rw [hghost] at hg2
      have hperm : (c :: rest).Perm g.2 := hsort_eq ▸ sortByStart_perm g.2
      have hsorted : (c :: rest).Sorted (fun a b => a.1 ≤ b.1) :=
        hsort_eq ▸ sortByStart_sorted g.2
      have hvalid : ∀ p ∈ g.2, p.1 ≤ p.2 := by
        intro p hp
        rw [hg2] at hp
        obtain ⟨t, ht, rfl⟩ := List.mem_map.mp hp
        exact hval t (List.mem_of_mem_filter ht)
      have hvalid' : ∀ p ∈ c :: rest, p.1 ≤ p.2 := fun p hp => hvalid p (hperm.subset hp)
      have hcrest : ∀ p ∈ rest, c.1 ≤ p.1 := (List.sorted_cons.mp hsorted).1
      have hrsort := (List.sorted_cons.mp hsorted).2
      refine ⟨mergeLoop c.1 c.2 rest, ?_, ?_, ?_, ?_⟩
      · intro x
        rw [mergeLoop_covers rest c.1 c.2 hcrest hrsort x, ← coversPt_cons,
          coversPt_perm hperm x, hg2]
        unfold coversPt
        constructor
        · rintro ⟨p, hp, h1, h2⟩
          obtain ⟨t, ht, rfl⟩ := List.mem_map.mp hp
          have htt := List.mem_filter.mp ht
          exact ⟨t, htt.1, of_decide_eq_true htt.2, h1, h2⟩
        · rintro ⟨t, ht, hth, h1, h2⟩
          exact ⟨ivOf t, List.mem_map_of_mem ivOf
            (List.mem_filter.mpr ⟨ht, decide_eq_true hth⟩), h1, h2⟩
      · exact (mergeLoop_chain rest c.1 c.2 (hvalid' c (List.mem_cons_self _ _))
          hcrest (fun p hp => hvalid' p (List.mem_cons_of_mem _ hp)) hrsort).1
      · exact (mergeLoop_chain rest c.1 c.2 (hvalid' c (List.mem_cons_self _ _))
          hcrest (fun p hp => hvalid' p (List.mem_cons_of_mem _ hp)) hrsort).2
      · rw [← hpr2, hv]

/-- Two tasks on one host with fully overlapping intervals produce the
union length, not the sum of durations. -/
theorem compute_active_two_overlapping (t1 t2 : UniversalTrace)
    (hh : t1.hostname = t2.hostname)
    (h12 : (t1.start : ℚ) ≤ (t2.start : ℚ)) (h21 : (t2.end_ : ℚ) ≤ (t1.end_ : ℚ))
    (hv2 : (t2.start : ℚ) ≤ (t2.end_ : ℚ)) :
    compute_active_time_per_host [t1, t2]
      = [(t1.hostname, ((t1.end_ : ℚ) - (t1.start : ℚ)) / 1000 / 3600)] := by
  have hmerge : ((t2.start : ℚ)) ≤ (t1.end_ : ℚ) := le_trans hv2 h21
  have hgroup : groupIntervalsByHost [t1, t2]
      = [(t1.hostname, [ivOf t1, ivOf t2])] := by
    unfold groupIntervalsByHost
    rw [List.foldl_cons, List.foldl_cons, List.foldl_nil]
    have hs1 : groupStep [] t1 = [(t1.hostname, [ivOf t1])] := by
      unfold groupStep
      simp [ivOf]
    rw [hs1]
    unfold groupStep
    rw [if_pos (by simp [hh])]
    simp [hh, ivOf]
  have hsort : sortByStart [ivOf t1, ivOf t2] = [ivOf t1, ivOf t2] := by
    unfold sortByStart
    simp [List.insertionSort, List.orderedInsert, ivOf, h12]
  have hml : mergeLoop (ivOf t1).1 (ivOf t1).2 [ivOf t2] = [((t1.start : ℚ), (t1.end_ : ℚ))] := by
    unfold mergeLoop
    rw [if_pos (by simpa [ivOf] using hmerge)]
    unfold mergeLoop
    simp [ivOf, max_eq_left h21]
  have hentry : hostActiveEntry (t1.hostname, [ivOf t1, ivOf t2])
      = some (t1.hostname, ((t1.end_ : ℚ) - (t1.start : ℚ)) / 1000 / 3600) := by
    unfold hostActiveEntry
    simp only [hsort, hml]
    simp [ivOf]
  unfold compute_active_time_per_host
  rw [hgroup]
  simp [List.filterMap_cons, hentry]

/-- C3: `compute_active_time_per_host` returns, per host, the total
length of the union of that host's `(start, end)` task intervals
(converted ms → hours): the start-sorted merge produces valid,
strictly separated intervals covering exactly that union, and the
returned value is their summed length over 3_600_000.  In particular,
for two tasks on one host with fully overlapping `[start, end)`, the
result is the union (outer) length, not the sum of the two durations. -/
theorem C3_active_time_union (tasks : List UniversalTrace)
    (hval : ∀ t ∈ tasks, (t.start : ℚ) ≤ (t.end_ : ℚ)) :
    (∀ (host : String) (v : ℚ),
      dictLookup (compute_active_time_per_host tasks) host = .ok v →
      ∃ merged : List (ℚ × ℚ),
        (∀ x : ℚ, coversPt merged x ↔
          ∃ t ∈ tasks, t.hostname = host ∧ (t.start : ℚ) ≤ x ∧ x < (t.end_ : ℚ)) ∧
        merged.Chain' (fun a b => a.2 < b.1) ∧
        (∀ p ∈ merged, p.1 ≤ p.2) ∧
        v = ((merged.map (fun q => q.2 - q.1)).sum) / 1000 / 3600) ∧
    (∀ t1 t2 : UniversalTrace, t1.hostname = t2.hostname →
      (t1.start : ℚ) ≤ (t2.start : ℚ) → (t2.end_ : ℚ) ≤ (t1.end_ : ℚ) →
      (t2.start : ℚ) ≤ (t2.end_ : ℚ) →
      compute_active_time_per_host [t1, t2]
        = [(t1.hostname, ((t1.end_ : ℚ) - (t1.start : ℚ)) / 1000 / 3600)]) :=
  ⟨compute_active_lookup_union tasks hval,
   fun t1 t2 hh h12 h21 hv2 => compute_active_two_overlapping t1 t2 hh h12 h21 hv2⟩

/-- C3 (witness): host `h1` runs a one-hour task and a fully contained
20-minute task; the active time is the union hour, not 1 hour 20
minutes. -/
theorem C3_witness :
    compute_active_time_per_host [overlapTaskA, overlapTaskB] = [("h1", 1)] := by
  have h := (C3_active_time_union [overlapTaskA, overlapTaskB]
      (by intro t ht
          rcases List.mem_cons.mp ht with rfl | ht2
          · norm_num [overlapTaskA]
          · rcases List.mem_cons.mp ht2 with rfl | ht3
            · norm_num [overlapTaskB]
            · cases ht3)).2
    overlapTaskA overlapTaskB rfl (by norm_num [overlapTaskA, overlapTaskB])
    (by norm_num [overlapTaskA, overlapTaskB]) (by norm_num [overlapTaskB])
  rw [h]
  norm_num [overlapTaskA]
